import Mathlib

/-
Verification development for the LightRAG custom LLM wrapper
(src/custom_llm_wrapper/wrapper_multimodal.py, with wrapper.py sharing the
non-streaming / raw-line logic).  The Python code is shallowly embedded:
JSON values become the inductive `J`, the SSE generator becomes a pure
function from an upstream environment to the list of emitted frames, and
Python exceptions become explicit `Except` / crash flags.
-/

namespace Wrap

/-- JSON values as produced by Python's json.loads.  Numbers are modelled as
integers (no claim depends on float behaviour); object fields keep their
insertion order, mirroring Python dicts. -/
inductive J where
  | null
  | jbool (b : Bool)
  | num (n : Int)
  | str (s : String)
  | arr (xs : List J)
  | obj (fields : List (String × J))

/-- Python truthiness of a JSON value (used by `x or y` chains and `if x:`). -/
def truthy : J → Bool
  | .null => false
  | .jbool b => b
  | .num n => n != 0
  | .str s => s != ""
  | .arr xs => !xs.isEmpty
  | .obj fs => !fs.isEmpty

/-- dict lookup: first field with the given key (Python dicts have unique
keys, so first match is the match). -/
def jGet (fields : List (String × J)) (k : String) : Option J :=
  match fields with
  | [] => none
  | (k2, v) :: rest => if k2 = k then some v else jGet rest k

/-- Python `d.get(k, default)`. -/
def jGetD (fields : List (String × J)) (k : String) (d : J) : J :=
  (jGet fields k).getD d

/-- Python `d[k] = v`: replace the value in place if the key exists,
otherwise append the new key at the end (dict insertion order). -/
def setField (fields : List (String × J)) (k : String) (v : J) : List (String × J) :=
  match fields with
  | [] => [(k, v)]
  | (k2, w) :: rest => if k2 = k then (k2, v) :: rest else (k2, w) :: setField rest k v

/-- Evaluate a Python `a or b or ...` chain over optional values
(`none` models an absent key / `None`): the first truthy value, if any. -/
def firstTruthy : List (Option J) → Option J
  | [] => none
  | v :: rest =>
    match v with
    | some x => if truthy x then some x else firstTruthy rest
    | none => firstTruthy rest

/-- JSON string escaping (quote and backslash). -/
def jEscape : List Char → String
  | [] => ""
  | c :: cs =>
    (if c = '"' then "\\\"" else if c = '\\' then "\\\\" else String.mk [c]) ++ jEscape cs

/-- A single-quoted Python repr of a string (escaping not modelled; no claim
inspects nested-container repr output). -/
def pyQuote (s : String) : String :=
  String.mk (Char.ofNat 39 :: s.data ++ [Char.ofNat 39])

mutual
/-- Python json.dumps (ensure_ascii=False, default separators).  Only string
escaping of quote and backslash is modelled; no claim inspects the dumped
text of a string containing other escapes. -/
def jdump : J → String
  | .null => "null"
  | .jbool true => "true"
  | .jbool false => "false"
  | .num n => toString n
  | .str s => "\"" ++ jEscape s.data ++ "\""
  | .arr xs => "[" ++ jdumpList xs ++ "]"
  | .obj fs => "\x7b" ++ jdumpFields fs ++ "\x7d"

/-- Elements of a dumped JSON array, separated by ", ". -/
def jdumpList : List J → String
  | [] => ""
  | [x] => jdump x
  | x :: y :: r => jdump x ++ ", " ++ jdumpList (y :: r)

/-- Fields of a dumped JSON object, separated by ", " with ": " after keys. -/
def jdumpFields : List (String × J) → String
  | [] => ""
  | [(k, v)] => "\"" ++ jEscape k.data ++ "\": " ++ jdump v
  | (k, v) :: y :: r => "\"" ++ jEscape k.data ++ "\": " ++ jdump v ++ ", " ++ jdumpFields (y :: r)
end

mutual
/-- Python `str(x)` on a decoded JSON value (repr-style for containers,
with `chr 39` quotes around strings; `None`/`True`/`False` spelling). -/
def pyStr : J → String
  | .null => "None"
  | .jbool true => "True"
  | .jbool false => "False"
  | .num n => toString n
  | .str s => s
  | .arr xs => "[" ++ pyStrList xs ++ "]"
  | .obj fs => "\x7b" ++ pyStrFields fs ++ "\x7d"

/-- repr of a list's elements, separated by ", ". -/
def pyStrList : List J → String
  | [] => ""
  | [x] => pyReprAtom x
  | x :: y :: r => pyReprAtom x ++ ", " ++ pyStrList (y :: r)

/-- repr of a dict's fields, separated by ", ". -/
def pyStrFields : List (String × J) → String
  | [] => ""
  | [(k, v)] => pyQuote k ++ ": " ++ pyReprAtom v
  | (k, v) :: y :: r => pyQuote k ++ ": " ++ pyReprAtom v ++ ", " ++ pyStrFields (y :: r)

/-- repr of a single value nested inside a container (strings get quotes,
other values render as at top level). -/
def pyReprAtom : J → String
  | .null => "None"
  | .jbool true => "True"
  | .jbool false => "False"
  | .num n => toString n
  | .str s => pyQuote s
  | .arr xs => "[" ++ pyStrList xs ++ "]"
  | .obj fs => "\x7b" ++ pyStrFields fs ++ "\x7d"
end

/-- Python `\s` on the ASCII range (space, tab, newline, carriage return,
vertical tab, form feed); used uniformly for `str.split()`, `str.strip()`
and the `\s` regexes, so anything proved is faithful on ASCII text. -/
def isPySpace (c : Char) : Bool :=
  c = ' ' || c = '\t' || c = '\n' || c = '\r' || c = '\x0b' || c = '\x0c'

/-- Worker for Python `str.split()` (no separator): `cur` is the current
word accumulated in reverse. -/
def pySplitGo (cur : List Char) : List Char → List (List Char)
  | [] => if cur.isEmpty then [] else [cur.reverse]
  | c :: cs =>
    if isPySpace c then
      if cur.isEmpty then pySplitGo [] cs else cur.reverse :: pySplitGo [] cs
    else pySplitGo (c :: cur) cs

/-- Python `str.split()`: maximal runs of non-whitespace characters. -/
def pySplitL (l : List Char) : List (List Char) := pySplitGo [] l

/-- Python `" ".join(...)` at the character-list level. -/
def joinSpaceL : List (List Char) → List Char
  | [] => []
  | [x] => x
  | x :: y :: r => x ++ ' ' :: joinSpaceL (y :: r)

/-- Python `" ".join(...)` on strings. -/
def joinSpaceS (l : List String) : String :=
  String.mk (joinSpaceL (l.map String.data))

/-- Worker slicing a list into chunks of `n` elements: `cur` is the current
chunk in reverse, `k` the remaining capacity of the current chunk. -/
def chunkGo (n : Nat) (cur : List α) (k : Nat) : List α → List (List α)
  | [] => if cur.isEmpty then [] else [cur.reverse]
  | x :: xs =>
    if k = 0 then cur.reverse :: chunkGo n [x] (n - 1) xs
    else chunkGo n (x :: cur) (k - 1) xs

/-- Python slicing `l[i:i+n] for i in range(0, len(l), n)`. -/
def chunksOf (n : Nat) (l : List α) : List (List α) := chunkGo n [] n l

/-- `chunk_text_by_words` (wrapper_multimodal.py lines 83-88): split into
words, group six words per chunk, join each group with single spaces.
(The `if not text` guard is semantically the empty-split case.) -/
def chunk_text_by_words (s : String) : List String :=
  (chunksOf 6 (pySplitL s.data)).map (fun g => String.mk (joinSpaceL g))

/-- Characters handled by step 1 of `clean_text_for_tts`: asterisk, hash,
backquote, underscore, greater-than, square brackets, parentheses, hyphen
(the first regex character class, applied as a run with a plus). -/
def isS1 (c : Char) : Bool :=
  c = '*' || c = '#' || c = '`' || c = '_' || c = '>' ||
  c = '[' || c = ']' || c = '(' || c = ')' || c = '-'

/-- Characters handled by step 2: the class of backslash, caret, braces
and dollar. -/
def isS2 (c : Char) : Bool :=
  c = '\\' || c = '^' || c = '\x7b' || c = '\x7d' || c = '$'

/-- Bullet characters of step 4 (`[-*]`). -/
def isBullet (c : Char) : Bool := c = '-' || c = '*'

/-- Worker for `re.sub(r"[...]+", " ", text)`: replace each maximal run of
characters satisfying `p` by a single space.  `inRun` records whether the
previous character was part of a run. -/
def runsGo (p : Char → Bool) (inRun : Bool) : List Char → List Char
  | [] => []
  | c :: cs =>
    if p c then
      if inRun then runsGo p true cs else ' ' :: runsGo p true cs
    else c :: runsGo p false cs

/-- `re.sub` of a character-class-plus regex by a single space. -/
def replaceRuns (p : Char → Bool) (l : List Char) : List Char := runsGo p false l

/-- Worker for `re.sub(r"#{1,6}", " ", text)`: within a run of hashes the
greedy matcher restarts every six characters, so the character at in-run
index `k` opens a new match exactly when `k % 6 = 0`. -/
def hashGo (k : Nat) : List Char → List Char
  | [] => []
  | c :: cs =>
    if c = '#' then
      if k % 6 = 0 then ' ' :: hashGo (k + 1) cs else hashGo (k + 1) cs
    else c :: hashGo 0 cs

/-- Step 3 of `clean_text_for_tts`: `re.sub(r"#{1,6}", " ", text)`. -/
def hashSub (l : List Char) : List Char := hashGo 0 l

/-- Scanner state for `re.sub(r"^\s*[-*]\s+", "", text, flags=MULTILINE)`.
`start ws` buffers the whitespace consumed by a candidate `^\s*` (a match may
still fail); `bullet ws b` has additionally seen the `[-*]` character and
awaits the mandatory `\s+`; `eat lastNl` is consuming the greedy `\s+` of a
confirmed match, remembering whether the last deleted character was a
newline (which makes the next position a MULTILINE line start). -/
inductive BulState where
  | norm
  | start (ws : List Char)
  | bullet (ws : List Char) (b : Char)
  | eat (lastNl : Bool)

/-- Characters buffered by a scanner state that must be emitted if the input
ends before the candidate match resolves. -/
def bulFlush : BulState → List Char
  | .norm => []
  | .start ws => ws
  | .bullet ws b => ws ++ [b]
  | .eat _ => []

/-- One-character-at-a-time scanner for the MULTILINE bullet regex.  A
candidate match only starts at a line start; since `\s` and `[-*]` are
disjoint the greedy `\s*` never backtracks usefully, and a failed candidate
fails identically at every line start inside its buffered whitespace, so
flushing the buffer once is faithful. -/
def bulletGo (st : BulState) : List Char → List Char
  | [] => bulFlush st
  | c :: cs =>
    match st with
    | .norm => c :: bulletGo (if c = '\n' then .start [] else .norm) cs
    | .start ws =>
      if isPySpace c then bulletGo (.start (ws ++ [c])) cs
      else if isBullet c then bulletGo (.bullet ws c) cs
      else ws ++ c :: bulletGo .norm cs
    | .bullet ws b =>
      if isPySpace c then bulletGo (.eat (c = '\n')) cs
      else ws ++ b :: c :: bulletGo .norm cs
    | .eat lastNl =>
      if isPySpace c then bulletGo (.eat (c = '\n')) cs
      else if lastNl && isBullet c then bulletGo (.bullet [] c) cs
      else c :: bulletGo .norm cs

/-- Step 4 of `clean_text_for_tts`: remove `^\s*[-*]\s+` bullet markers
(MULTILINE); position 0 is a line start. -/
def bulletSub (l : List Char) : List Char := bulletGo (.start []) l

/-- `l.dropWhile p` written out (used for strip). -/
def dropStart (p : Char → Bool) : List Char → List Char
  | [] => []
  | c :: cs => if p c then dropStart p cs else c :: cs

/-- Remove trailing characters satisfying `p`. -/
def dropEnd (p : Char → Bool) : List Char → List Char
  | [] => []
  | c :: cs =>
    let r := dropEnd p cs
    if r.isEmpty && p c then [] else c :: r

/-- Python `str.strip()` at the character-list level. -/
def pyStripL (l : List Char) : List Char := dropEnd isPySpace (dropStart isPySpace l)

/-- Python `str.strip()`. -/
def pyStripS (s : String) : String := String.mk (pyStripL s.data)

/-- `clean_text_for_tts` (wrapper_multimodal.py lines 28-50) at the
character-list level: the six regex substitutions in source order.
Step 3 (`#{1,6}`) runs after step 1 already replaced every hash; step 4
(bullets) runs after steps 1-2 removed every `-` and `*`; both are embedded
faithfully nonetheless. -/
def cleanL (l : List Char) : List Char :=
  pyStripL (replaceRuns isPySpace
    (replaceRuns (fun c => c = '/')
      (bulletSub (hashSub ((replaceRuns isS1 l).map (fun c => if isS2 c then ' ' else c))))))

/-- `clean_text_for_tts`: the `if not text: return ""` guard followed by the
six substitutions and final whitespace collapse + strip. -/
def clean_text_for_tts (s : String) : String :=
  if s = "" then "" else String.mk (cleanL s.data)

/-- UTF-8 bytes of one code point (what Python's `text.encode("utf-8")`
emits per character). -/
def utf8Bytes (c : Char) : List Nat :=
  let n := c.toNat
  if n < 128 then [n]
  else if n < 2048 then [192 + n / 64, 128 + n % 64]
  else if n < 65536 then [224 + n / 4096, 128 + n / 64 % 64, 128 + n % 64]
  else [240 + n / 262144, 128 + n / 4096 % 64, 128 + n / 64 % 64, 128 + n % 64]

/-- `text.encode("utf-8")` as a byte list. -/
def strBytes (s : String) : List Nat := (s.data.map utf8Bytes).flatten

/-- `tts_synthesize_bytes` (lines 109-115): the mock synthesizer returns the
UTF-8 encoding of the text; the format argument is ignored by the mock. -/
def tts_synthesize_bytes (text : String) (fmt : String) : List Nat :=
  let _ := fmt
  strBytes text

/-- The base64 alphabet. -/
def b64Alphabet : List Char :=
  "ABCDEFGHIJKLMNOPQRSTUVWXYZabcdefghijklmnopqrstuvwxyz0123456789+/".data

/-- One base64 digit. -/
def b64Char (n : Nat) : Char := b64Alphabet.getD n 'A'

/-- Standard base64 of a byte list (what `base64.b64encode(...).decode("ascii")`
produces). -/
def b64Encode : List Nat → String
  | [] => ""
  | [a] => String.mk [b64Char (a / 4), b64Char (a % 4 * 16), '=', '=']
  | [a, b] => String.mk [b64Char (a / 4), b64Char (a % 4 * 16 + b / 16), b64Char (b % 16 * 4), '=']
  | a :: b :: c :: rest =>
    String.mk [b64Char (a / 4), b64Char (a % 4 * 16 + b / 16),
               b64Char (b % 16 * 4 + c / 64), b64Char (c % 64)] ++ b64Encode rest

/-- `make_audio_base64_chunks` (lines 117-119): base64 of each 1024-byte
slice. -/
def make_audio_base64_chunks (audioBytes : List Nat) : List String :=
  (chunksOf 1024 audioBytes).map b64Encode

/-- One SSE frame of the generator: either `data: <json>` (via `sse_event`)
or the literal terminal frame `data: [DONE]` (`Frame.done` embeds the yield
of that exact string; a dumped JSON object starts with a brace, so no
`sse_event` frame can collide with it). -/
inductive Frame where
  | ev (j : J)
  | done

/-- The terminal-frame test. -/
def isDone : Frame → Bool
  | .done => true
  | .ev _ => false

/-- Count of terminal frames in an output sequence. -/
def countDone (l : List Frame) : Nat := l.countP isDone

/-- The delta object of an emitted chunk, when the frame has the shape
`{"...", "choices": [{"delta": {...}}, ...]}`. -/
def deltaObjOf (j : J) : Option (List (String × J)) :=
  match j with
  | .obj fs =>
    match jGet fs "choices" with
    | some (.arr (.obj c0f :: _)) =>
      match jGet c0f "delta" with
      | some (.obj df) => some df
      | _ => none
    | _ => none
  | _ => none

/-- A `TextChunk` wire event: a delta carrying a string `content` field and
no truthy `audio` field (the classifier checks `audio` first, so a forwarded
delta with both is an audio event, mirroring spec section 4.1). -/
def isTextChunkFrame : Frame → Bool
  | .done => false
  | .ev j =>
    match deltaObjOf j with
    | some df =>
      (match jGet df "content" with
       | some (.str _) => true
       | _ => false) && !(truthy (jGetD df "audio" .null))
    | none => false

/-- An `AudioChunk` wire event: a delta carrying a truthy `audio` field. -/
def isAudioChunkFrame : Frame → Bool
  | .done => false
  | .ev j =>
    match deltaObjOf j with
    | some df => truthy (jGetD df "audio" .null)
    | none => false

/-- Count of `TextChunk` frames. -/
def countTextChunks (l : List Frame) : Nat := l.countP isTextChunkFrame

/-- The text-chunk JSON emitted for one piece (lines 231-235, 305-309,
318-322, 330-334 and the fallback error chunks all build exactly this
shape). -/
def contentChunk (sid piece : String) : J :=
  .obj [("id", .str sid), ("object", .str "chat.completion.chunk"),
        ("choices", .arr [.obj [("delta", .obj [("content", .str piece)])]])]

/-- The audio-chunk JSON emitted for one base64 slice (lines 356-360 and
405-409). -/
def audioChunk (sid b64 : String) : J :=
  .obj [("id", .str sid), ("object", .str "chat.completion.chunk"),
        ("choices", .arr [.obj [("delta", .obj [("audio",
          .obj [("id", .str (sid ++ "-audio")), ("data", .str b64)])])]])]

/-- The frames produced by chunking a text into six-word pieces. -/
def textChunkFrames (sid text : String) : List Frame :=
  (chunk_text_by_words text).map (fun piece => .ev (contentChunk sid piece))

/-- The audio frames produced by synthesizing a cleaned text (TTS bytes,
1024-byte slices, base64, one `delta.audio` chunk per slice). -/
def audioFrames (sid fmt cleaned : String) : List Frame :=
  (make_audio_base64_chunks (tts_synthesize_bytes cleaned fmt)).map
    (fun b64 => .ev (audioChunk sid b64))

/-- `any(p in text_piece for p in [".", "!", "?"])`. -/
def hasPunct (piece : String) : Bool :=
  piece.data.any (fun c => c = '.' || c = '!' || c = '?')

/-- `len(" ".join(buffer).split())`: the word count the flush condition
tests. -/
def bufferWordCount (buf : List String) : Nat :=
  (pySplitL (joinSpaceL (buf.map String.data))).length

/-- One step of the text re-segmenter (lines 269-285): append the fragment
to the buffer; flush (returning the buffer joined with single spaces, and an
emptied buffer) when the fragment contains sentence-terminal punctuation or
the buffered word count is at least twelve. -/
def resegStep (buf : List String) (piece : String) : List String × Option String :=
  let buf2 := buf ++ [piece]
  if hasPunct piece || decide (12 ≤ bufferWordCount buf2) then
    ([], some (joinSpaceS buf2))
  else (buf2, none)

/-- Feed a fragment sequence through the re-segmenter from an empty buffer,
collecting flushed segments; returns (final buffer, emitted segments). -/
def resegRun (frags : List String) : List String × List String :=
  frags.foldl
    (fun st p =>
      let r := resegStep st.1 p
      (r.1, st.2 ++ r.2.toList))
    ([], [])

/-- One line delivered by the upstream stream, after `strip()`:
`jsonObj` is a line that parses as a JSON object; `textLine` is a non-blank
line that fails `json.loads` (or parses to a non-dict, which the code treats
identically via the raw-line branch); `blank` lines are skipped. -/
inductive RawLine where
  | jsonObj (fields : List (String × J))
  | textLine (s : String)
  | blank

/-- Mutable state of the proxy-streaming loop: the re-segmenter buffer and
`aggregated_text_parts`. -/
structure LoopState where
  buffer : List String
  aggregated : List String

/-- `delta = choices[0].get("delta", {}) if choices else {}` (line 257):
`.error` models the Python exceptions raised when `choices` is truthy but
not a list of dicts (subscript or attribute error). -/
def deltaOf (choicesV : J) : Except Unit J :=
  if truthy choicesV then
    match choicesV with
    | .arr (.obj c0f :: _) => .ok (jGetD c0f "delta" (.obj []))
    | _ => .error ()
  else .ok (.obj [])

/-- `parsed["id"] = stream_id` followed by
`parsed["choices"][0]["delta"]["content"] = combined` (lines 281-282).  The
surrounding branch guarantees `choices` is a non-empty list whose head is a
dict with a dict `delta` carrying a string `content`; on any other shape the
update is the identity (that shape is unreachable from the caller). -/
def mutateParsed (fs : List (String × J)) (sid combined : String) : J :=
  let fs1 := setField fs "id" (.str sid)
  .obj (match jGet fs1 "choices" with
        | some (.arr (.obj c0f :: rest)) =>
          (match jGet c0f "delta" with
           | some (.obj df) =>
             setField fs1 "choices"
               (.arr (.obj (setField c0f "delta"
                 (.obj (setField df "content" (.str combined)))) :: rest))
           | _ => fs1)
        | _ => fs1)

/-- Handling of a parsed dict that is not an Agora chunk, or fell through
the delta cases (lines 299-324): first truthy of the top-level
response/answer/result keys if it is a string, else stringify the whole
object; emit six-word chunks only when text output is wanted. -/
def topLevelHandling (wt : Bool) (sid : String) (st : LoopState)
    (fs : List (String × J)) : LoopState × List Frame :=
  match firstTruthy [jGet fs "response", jGet fs "answer", jGet fs "result"] with
  | some (.str s) =>
    ({ st with aggregated := st.aggregated ++ [s] },
     if wt then textChunkFrames sid s else [])
  | _ =>
    let flat := jdump (.obj fs)
    ({ st with aggregated := st.aggregated ++ [flat] },
     if wt then textChunkFrames sid flat else [])

/-- `parsed.get("object") == "chat.completion.chunk"` (line 254). -/
def isChunkObject (fs : List (String × J)) : Bool :=
  match jGet fs "object" with
  | some (.str o) => o = "chat.completion.chunk"
  | _ => false

/-- Processing of one upstream line inside the proxy loop (lines 238-335).
`.error` models a Python exception escaping the line handler (caught by the
outer `try`, which aborts streaming into the fallback). -/
def processLine (wt wa : Bool) (sid : String) (st : LoopState) (line : RawLine) :
    Except Unit (LoopState × List Frame) :=
  match line with
  | .blank => .ok (st, [])
  | .textLine s =>
    .ok ({ st with aggregated := st.aggregated ++ [s] },
         if wt then textChunkFrames sid s else [])
  | .jsonObj fs =>
    if isChunkObject fs then
      match deltaOf (jGetD fs "choices" (.arr [])) with
      | .error _ => .error ()
      | .ok delta =>
        match delta with
        | .obj df =>
          if truthy (jGetD df "audio" .null) then
            .ok (st, [.ev (.obj (setField fs "id" (.str sid)))])
          else
            match jGet df "content" with
            | some (.str piece) =>
              let agg2 := st.aggregated ++ [piece]
              let r := resegStep st.buffer piece
              match r.2 with
              | some combined =>
                .ok ({ buffer := r.1, aggregated := agg2 },
                     if wt && !wa then [.ev (mutateParsed fs sid combined)] else [])
              | none => .ok ({ buffer := r.1, aggregated := agg2 }, [])
            | some (.obj dcf) =>
              match firstTruthy [jGet dcf "response", jGet dcf "answer",
                                 jGet dcf "result", jGet dcf "content"] with
              | some t =>
                .ok ({ st with aggregated := st.aggregated ++ [pyStr t] },
                     if wt then textChunkFrames sid (pyStr t) else [])
              | none => .ok (topLevelHandling wt sid st fs)
            | _ => .ok (topLevelHandling wt sid st fs)
        | _ => .error ()
    else .ok (topLevelHandling wt sid st fs)

/-- Run the proxy loop over the delivered lines; the Bool is true when a
line handler raised (aborting the loop with the frames emitted so far). -/
def runLines (wt wa : Bool) (sid : String) (st : LoopState) :
    List RawLine → LoopState × List Frame × Bool
  | [] => (st, [], false)
  | l :: rest =>
    match processLine wt wa sid st l with
    | .error _ => (st, [], true)
    | .ok (st2, fr) =>
      let r := runLines wt wa sid st2 rest
      (r.1, fr ++ r.2.1, r.2.2)

/-- Result of one `call_lightrag_query` invocation: a transport exception
(with `str(e)`), or an HTTP response.  Per the upstream contract (spec
section 6) the body of a response used via `r.json()` is a JSON object;
`rawText` carries `r.text` for error details. -/
inductive QueryResult where
  | qfail (msg : String)
  | qok (status : Nat) (body : List (String × J)) (rawText : String)

/-- Outcome of opening the upstream streaming connection: a connect-time
exception, or a response with a status, the lines delivered by
`aiter_lines`, and whether the transport then raised mid-flight (after
delivering exactly those lines). -/
inductive ConnResult where
  | connFail
  | connOk (status : Nat) (lines : List RawLine) (midFail : Bool)

/-- The upstream behaviour of one session: the streaming attempt, the
synthesis-path re-query (`r2`, line 342), the fallback query (line 373) and
the non-streaming-path query (line 189). -/
structure Env where
  conn : ConnResult
  synthQuery : QueryResult
  fbQuery : QueryResult
  nsQuery : QueryResult

/-- Everything observable about one streaming session: the frames yielded,
whether an uncaught exception escaped the generator (aborting the SSE
stream), whether the fallback non-streaming query was issued, and the
re-segmenter buffer left at the end of the proxy loop. -/
structure GenOut where
  frames : List Frame
  crashed : Bool
  usedFallback : Bool
  buffer : List String

/-- The post-stream synthesis block (lines 337-361): on success returns the
audio frames to emit; `.error` models an exception inside the outer `try`
(for example `clean_text_for_tts` applied to a non-string truthy field of
the re-query body), which sends the generator to the fallback. -/
def successTail (wa : Bool) (sid fmt : String) (aggregated : List String)
    (q : QueryResult) : Except Unit (List Frame) :=
  if wa then
    let ft0 : Option J :=
      match q with
      | .qfail _ => none
      | .qok status body _ =>
        if status = 200 then
          firstTruthy [jGet body "response", jGet body "answer", jGet body "result"]
        else none
    match ft0 with
    | some (.str s) => .ok (audioFrames sid fmt (clean_text_for_tts s))
    | some _ => .error ()
    | none =>
      let ft := pyStripS (joinSpaceS aggregated)
      .ok (if ft = "" then [] else audioFrames sid fmt (clean_text_for_tts ft))
  else .ok []

/-- The fallback path (lines 371-413): transport failure or non-200 emit a
single error text chunk then DONE; a 200 body yields six-word text chunks
(when text is wanted) and synthesized audio chunks (when audio is wanted),
then DONE.  When the first truthy of response/answer/result is a non-string
value, `chunk_text_by_words` (text wanted) or `clean_text_for_tts` (audio
wanted) raises outside any `try`: the generator dies having emitted nothing
here, modelled by the `true` crash flag. -/
def fallbackRun (wt wa : Bool) (sid fmt : String) (q : QueryResult) :
    List Frame × Bool :=
  match q with
  | .qfail msg =>
    ([.ev (contentChunk sid ("LightRAG request failed: " ++ msg)), .done], false)
  | .qok status body _ =>
    if status = 200 then
      let fullText : J :=
        (firstTruthy [jGet body "response", jGet body "answer",
                      jGet body "result"]).getD (.str (jdump (.obj body)))
      match fullText with
      | .str s =>
        ((if wt then textChunkFrames sid s else []) ++
         (if wa then audioFrames sid fmt (clean_text_for_tts s) else []) ++
         [.done], false)
      | _ =>
        if wt || wa then ([], true) else ([.done], false)
    else
      ([.ev (contentChunk sid ("LightRAG error: " ++ toString status)), .done], false)

/-- `modalities = req.modalities or ["text"]` (line 131). -/
def normModalities (m : Option (List String)) : List String :=
  match m with
  | none => ["text"]
  | some l => if l.isEmpty then ["text"] else l

/-- `want_audio_output = "audio" in modalities` (line 132). -/
def wantAudioOutput (modalities : List String) : Bool := modalities.contains "audio"

/-- `want_text_output = "text" in modalities or modalities == ["text"]`
(line 133). -/
def wantTextOutput (modalities : List String) : Bool :=
  modalities.contains "text" || modalities == ["text"]

/-- `stream_generator` (lines 217-414) as a function of the upstream
environment.  The outer `try` covers the whole proxy-streaming block
including the post-stream synthesis, so any exception there (connect
failure, mid-flight transport failure, line-handler error, synthesis-block
error) falls through to the fallback; a non-200 streaming status falls
through without an exception.  The success path ends with the DONE frame
and returns. -/
def streamGenerator (env : Env) (modalitiesOpt : Option (List String))
    (sid fmt : String) : GenOut :=
  let modalities := normModalities modalitiesOpt
  let wa := wantAudioOutput modalities
  let wt := wantTextOutput modalities
  match env.conn with
  | .connFail =>
    let r := fallbackRun wt wa sid fmt env.fbQuery
    ⟨r.1, r.2, true, []⟩
  | .connOk status lines midFail =>
    if status = 200 then
      let lr := runLines wt wa sid ⟨[], []⟩ lines
      if lr.2.2 || midFail then
        let r := fallbackRun wt wa sid fmt env.fbQuery
        ⟨lr.2.1 ++ r.1, r.2, true, lr.1.buffer⟩
      else
        match successTail wa sid fmt lr.1.aggregated env.synthQuery with
        | .ok tailFr => ⟨lr.2.1 ++ tailFr ++ [.done], false, false, lr.1.buffer⟩
        | .error _ =>
          let r := fallbackRun wt wa sid fmt env.fbQuery
          ⟨lr.2.1 ++ r.1, r.2, true, lr.1.buffer⟩
    else
      let r := fallbackRun wt wa sid fmt env.fbQuery
      ⟨r.1, r.2, true, []⟩

/-- Message content after pydantic validation: a plain string or a list of
dicts (`Union[str, List[Dict[str, Any]]]`; non-dict list elements are
rejected by validation before the handler runs). -/
inductive MsgContent where
  | plain (s : String)
  | items (l : List (List (String × J)))

/-- `ChatMessage` (role plus content). -/
structure ChatMessage where
  role : String
  content : MsgContent

/-- Python truthiness of a message content (`if not last_user`). -/
def contentTruthy : MsgContent → Bool
  | .plain s => s != ""
  | .items l => !l.isEmpty

/-- Python `str.lower()` (character-wise; faithful on ASCII roles). -/
def pyLower (s : String) : String := String.mk (s.data.map Char.toLower)

/-- The reversed-scan worker of `extract_last_user`. -/
def findUserIn : List ChatMessage → Option MsgContent
  | [] => none
  | m :: rest => if pyLower m.role = "user" then some m.content else findUserIn rest

/-- `extract_last_user` (wrapper_multimodal.py lines 136-140 and wrapper.py
lines 36-40, identical logic): walk the messages in reverse and return the
content of the first message whose lowercased role is "user". -/
def extract_last_user (messages : List ChatMessage) : Option MsgContent :=
  findUserIn messages.reverse

/-- The STT block over structured content items (lines 152-172): collect
the non-empty `text` of text items and the transcript of audio items
carrying truthy data; `stt` is the pluggable speech-to-text collaborator
applied to the `data` value (the mock ignores the format argument).
`.error` models the Python errors raised on a truthy non-string `text`
value (the later join raises) or a non-dict `input_audio` value. -/
def sttCollect (stt : J → String) : List (List (String × J)) →
    Except Unit (List String)
  | [] => .ok []
  | item :: rest => do
    let tail ← sttCollect stt rest
    match jGet item "type" with
    | some (.str "text") =>
      match jGetD item "text" (.str "") with
      | .str t => if t = "" then pure tail else pure (t :: tail)
      | v => if truthy v then .error () else pure tail
    | some (.str "input_audio") =>
      match jGetD item "input_audio" (.obj []) with
      | .obj audioInfo =>
        match jGet audioInfo "data" with
        | some d => if truthy d then pure (stt d :: tail) else pure tail
        | none => pure tail
      | _ => .error ()
    | _ => pure tail

/-- The handler's outcome: an `HTTPException`, a `JSONResponse`, a
streaming response (with its full generated output), or an unhandled
exception (HTTP 500). -/
inductive HandlerResult where
  | httpError (status : Nat) (detail : String)
  | jsonResp (j : J)
  | streaming (out : GenOut)
  | serverError

/-- `chat_completions` (wrapper_multimodal.py lines 124-416).  The returned
Bool records whether any upstream request was issued (the 400 paths return
before the payload is ever sent).  `sid` stands for the fresh
`str(uuid.uuid4())` and `stt` for the pluggable speech-to-text engine. -/
def chat_completions (env : Env) (stt : J → String) (messages : List ChatMessage)
    (stream : Option Bool) (modalities : Option (List String))
    (audioOpt : Option (List (String × J))) (sid : String) :
    HandlerResult × Bool :=
  match extract_last_user messages with
  | none => (.httpError 400 "No user message found", false)
  | some lu =>
    if contentTruthy lu then
      let finalText : Except Unit String :=
        match lu with
        | .plain s => .ok s
        | .items l => (sttCollect stt l).map (fun ts => pyStripS (joinSpaceS ts))
      match finalText with
      | .error _ => (.serverError, false)
      | .ok ft =>
        if ft = "" then (.httpError 400 "No usable user text after STT", false)
        else
          if stream.getD true then
            let fmt :=
              match audioOpt with
              | some af =>
                (match jGet af "format" with
                 | some (.str f) => f
                 | _ => "pcm16")
              | none => "pcm16"
            (.streaming (streamGenerator env modalities sid fmt), true)
          else
            match env.nsQuery with
            | .qfail msg => (.httpError 502 ("LightRAG request failed: " ++ msg), true)
            | .qok status body rawText =>
              if status = 200 then
                let ans : J :=
                  (firstTruthy [jGet body "response", jGet body "answer",
                                jGet body "result"]).getD (.str (jdump (.obj body)))
                (.jsonResp (.obj
                  [("id", .str "custom-lm-wrapper-1"),
                   ("object", .str "chat.completion"),
                   ("choices", .arr [.obj
                     [("index", .num 0),
                      ("message", .obj [("role", .str "assistant"), ("content", ans)]),
                      ("finish_reason", .str "stop")]])]), true)
              else
                (.httpError 502
                  ("LightRAG error: " ++ toString status ++ " " ++ rawText), true)
    else (.httpError 400 "No user message found", false)

/-
Helper lemmas.
-/


/-- No two adjacent characters both satisfy `p`. -/
def noAdjB (p : Char → Bool) : List Char → Bool
  | c1 :: c2 :: rest => (!(p c1 && p c2)) && noAdjB p (c2 :: rest)
  | _ => true

/-- The head, if any, does not satisfy `p`. -/
def headOkB (p : Char → Bool) : List Char → Bool
  | [] => true
  | c :: _ => !p c

/-- The last element, if any, does not satisfy `p`. -/
def lastOkB (p : Char → Bool) : List Char → Bool
  | [] => true
  | [c] => !p c
  | _ :: c :: rest => lastOkB p (c :: rest)

theorem mem_runsGo {p : Char → Bool} {b : Bool} {l : List Char} {c : Char}
    (h : c ∈ runsGo p b l) : c = ' ' ∨ (c ∈ l ∧ p c = false) := by
  induction l generalizing b with
  | nil => simp [runsGo] at h
  | cons d cs ih =>
    simp only [runsGo] at h
    by_cases hd : p d
    · simp only [hd, if_true] at h
      by_cases hb : b
      · subst hb; simp only [if_true] at h
        rcases ih h with h1 | ⟨h2, h3⟩
        · exact Or.inl h1
        · exact Or.inr ⟨List.mem_cons_of_mem _ h2, h3⟩
      · simp only [Bool.not_eq_true] at hb; subst hb; simp only [Bool.false_eq_true, if_false] at h
        rcases List.mem_cons.mp h with h1 | h1
        · exact Or.inl h1
        · rcases ih h1 with h2 | ⟨h2, h3⟩
          · exact Or.inl h2
          · exact Or.inr ⟨List.mem_cons_of_mem _ h2, h3⟩
    · simp only [hd, if_false] at h
      rcases List.mem_cons.mp h with h1 | h1
      · subst h1; exact Or.inr ⟨List.mem_cons_self _ _, by simpa using hd⟩
      · rcases ih h1 with h2 | ⟨h2, h3⟩
        · exact Or.inl h2
        · exact Or.inr ⟨List.mem_cons_of_mem _ h2, h3⟩

theorem runsGo_id {p : Char → Bool} {l : List Char} (h : ∀ c ∈ l, p c = false) :
    ∀ b, runsGo p b l = l := by
  induction l with
  | nil => intro b; rfl
  | cons d cs ih =>
    intro b
    have hd : p d = false := h d (List.mem_cons_self _ _)
    simp only [runsGo, hd, if_false, Bool.false_eq_true]
    rw [ih (fun c hc => h c (List.mem_cons_of_mem _ hc)) false]

theorem runsGo_true_head {p : Char → Bool} {l : List Char} {c : Char} {cs : List Char}
    (h : runsGo p true l = c :: cs) : p c = false := by
  induction l generalizing c cs with
  | nil => simp [runsGo] at h
  | cons d ds ih =>
    simp only [runsGo] at h
    by_cases hd : p d
    · simp only [hd, if_true] at h; exact ih h
    · simp only [hd, if_false, Bool.false_eq_true, List.cons.injEq] at h
      rcases h with ⟨h1, _⟩
      subst h1; simpa using hd

theorem noAdjB_cons {p : Char → Bool} {c : Char} {l : List Char}
    (h1 : p c = false ∨ (∀ d rest, l = d :: rest → p d = false))
    (h2 : noAdjB p l = true) : noAdjB p (c :: l) = true := by
  cases l with
  | nil => rfl
  | cons d rest =>
    simp only [noAdjB, Bool.and_eq_true, Bool.not_eq_true']
    refine ⟨?_, h2⟩
    rcases h1 with h1 | h1
    · simp [h1]
    · simp [h1 d rest rfl]

theorem noAdj_runsGo (p : Char → Bool) (l : List Char) :
    ∀ b, noAdjB p (runsGo p b l) = true := by
  induction l with
  | nil => intro b; rfl
  | cons d cs ih =>
    intro b
    by_cases hd : p d
    · by_cases hb : b
      · subst hb; simp only [runsGo, hd, if_true]; exact ih true
      · simp only [Bool.not_eq_true] at hb; subst hb
        simp only [runsGo, hd, if_true, Bool.false_eq_true, if_false]
        refine noAdjB_cons (Or.inr ?_) (ih true)
        intro e rest he
        exact runsGo_true_head he
    · simp only [runsGo, hd, if_false, Bool.false_eq_true]
      refine noAdjB_cons (Or.inl ?_) (ih false)
      simpa using hd

theorem runsGo_true_eq_false {p : Char → Bool} {l : List Char}
    (h : headOkB p l = true) : runsGo p true l = runsGo p false l := by
  cases l with
  | nil => rfl
  | cons c cs =>
    have : p c = false := by simpa [headOkB] using h
    simp [runsGo, this]

theorem noAdjB_tail {p : Char → Bool} {c : Char} {l : List Char}
    (h : noAdjB p (c :: l) = true) : noAdjB p l = true := by
  cases l with
  | nil => rfl
  | cons d rest => simp only [noAdjB, Bool.and_eq_true] at h; exact h.2

theorem collapse_id {l : List Char}
    (hws : ∀ c ∈ l, isPySpace c = true → c = ' ')
    (hadj : noAdjB isPySpace l = true) :
    runsGo isPySpace false l = l := by
  induction l with
  | nil => rfl
  | cons c cs ih =>
    by_cases hc : isPySpace c
    · have hc2 : c = ' ' := hws c (List.mem_cons_self _ _) hc
      have hhead : headOkB isPySpace cs = true := by
        cases cs with
        | nil => rfl
        | cons d rest =>
          simp only [noAdjB, Bool.and_eq_true, Bool.not_eq_true'] at hadj
          simp only [headOkB, Bool.not_eq_true']
          rcases hadj with ⟨h1, _⟩
          cases hpd : isPySpace d
          · rfl
          · rw [hc, hpd] at h1; simp at h1
      simp only [runsGo, hc, if_true]
      rw [runsGo_true_eq_false hhead,
          ih (fun x hx => hws x (List.mem_cons_of_mem _ hx)) (noAdjB_tail hadj), hc2]
      simp
    · simp only [runsGo, hc, if_false, Bool.false_eq_true]
      rw [ih (fun x hx => hws x (List.mem_cons_of_mem _ hx)) (noAdjB_tail hadj)]


theorem mem_hashGo {l : List Char} {c : Char} {k : Nat}
    (h : c ∈ hashGo k l) : c = ' ' ∨ (c ∈ l ∧ c ≠ '#') := by
  induction l generalizing k with
  | nil => simp [hashGo] at h
  | cons d cs ih =>
    simp only [hashGo] at h
    by_cases hd : d = '#'
    · simp only [hd, if_true] at h
      by_cases hk : k % 6 = 0
      · simp only [hk, if_true] at h
        rcases List.mem_cons.mp h with h1 | h1
        · exact Or.inl h1
        · rcases ih h1 with h2 | ⟨h2, h3⟩
          · exact Or.inl h2
          · exact Or.inr ⟨List.mem_cons_of_mem _ h2, h3⟩
      · simp only [hk, if_false] at h
        rcases ih h with h2 | ⟨h2, h3⟩
        · exact Or.inl h2
        · exact Or.inr ⟨List.mem_cons_of_mem _ h2, h3⟩
    · simp only [hd, if_false] at h
      rcases List.mem_cons.mp h with h1 | h1
      · subst h1; exact Or.inr ⟨List.mem_cons_self _ _, hd⟩
      · rcases ih h1 with h2 | ⟨h2, h3⟩
        · exact Or.inl h2
        · exact Or.inr ⟨List.mem_cons_of_mem _ h2, h3⟩

theorem hashGo_id {l : List Char} (h : ∀ c ∈ l, c ≠ '#') : ∀ k, hashGo k l = l := by
  induction l with
  | nil => intro k; rfl
  | cons d cs ih =>
    intro k
    have hd : d ≠ '#' := h d (List.mem_cons_self _ _)
    simp only [hashGo, hd, if_false]
    rw [ih (fun c hc => h c (List.mem_cons_of_mem _ hc)) 0]

theorem mem_bulletGo {l : List Char} {c : Char} :
    ∀ st, c ∈ bulletGo st l → c ∈ bulFlush st ∨ c ∈ l := by
  induction l with
  | nil => intro st h; simp only [bulletGo] at h; exact Or.inl h
  | cons d cs ih =>
    intro st h
    cases st with
    | norm =>
      simp only [bulletGo] at h
      rcases List.mem_cons.mp h with h1 | h1
      · exact Or.inr (h1 ▸ List.mem_cons_self _ _)
      · rcases ih _ h1 with h2 | h2
        · split at h2 <;> simp_all [bulFlush]
        · exact Or.inr (List.mem_cons_of_mem _ h2)
    | start ws =>
      simp only [bulletGo] at h
      by_cases hsp : isPySpace d
      · simp only [hsp, if_true] at h
        rcases ih _ h with h2 | h2
        · simp only [bulFlush, List.mem_append, List.mem_singleton] at h2
          rcases h2 with h3 | h3
          · exact Or.inl h3
          · exact Or.inr (h3 ▸ List.mem_cons_self _ _)
        · exact Or.inr (List.mem_cons_of_mem _ h2)
      · simp only [hsp, if_false, Bool.false_eq_true] at h
        by_cases hb : isBullet d
        · simp only [hb, if_true] at h
          rcases ih _ h with h2 | h2
          · simp only [bulFlush, List.mem_append, List.mem_singleton] at h2
            rcases h2 with h3 | h3
            · exact Or.inl h3
            · exact Or.inr (h3 ▸ List.mem_cons_self _ _)
          · exact Or.inr (List.mem_cons_of_mem _ h2)
        · simp only [hb, if_false, Bool.false_eq_true, List.mem_append, List.mem_cons] at h
          rcases h with h1 | h1 | h1
          · exact Or.inl h1
          · exact Or.inr (h1 ▸ List.mem_cons_self _ _)
          · rcases ih _ h1 with h2 | h2
            · simp [bulFlush] at h2
            · exact Or.inr (List.mem_cons_of_mem _ h2)
    | bullet ws b =>
      simp only [bulletGo] at h
      by_cases hsp : isPySpace d
      · simp only [hsp, if_true] at h
        rcases ih _ h with h2 | h2
        · simp [bulFlush] at h2
        · exact Or.inr (List.mem_cons_of_mem _ h2)
      · simp only [hsp, if_false, Bool.false_eq_true, List.mem_append, List.mem_cons] at h
        rcases h with h1 | h1 | h1 | h1
        · exact Or.inl (by simp [bulFlush, h1])
        · exact Or.inl (by simp [bulFlush, h1])
        · exact Or.inr (h1 ▸ List.mem_cons_self _ _)
        · rcases ih _ h1 with h2 | h2
          · simp [bulFlush] at h2
          · exact Or.inr (List.mem_cons_of_mem _ h2)
    | eat lastNl =>
      simp only [bulletGo] at h
      by_cases hsp : isPySpace d
      · simp only [hsp, if_true] at h
        rcases ih _ h with h2 | h2
        · simp [bulFlush] at h2
        · exact Or.inr (List.mem_cons_of_mem _ h2)
      · simp only [hsp, if_false, Bool.false_eq_true] at h
        by_cases hb : lastNl && isBullet d
        · simp only [hb, if_true] at h
          rcases ih _ h with h2 | h2
          · simp only [bulFlush, List.nil_append, List.mem_singleton] at h2
            exact Or.inr (h2 ▸ List.mem_cons_self _ _)
          · exact Or.inr (List.mem_cons_of_mem _ h2)
        · simp only [hb, if_false, Bool.false_eq_true, List.mem_cons] at h
          rcases h with h1 | h1
          · exact Or.inr (h1 ▸ List.mem_cons_self _ _)
          · rcases ih _ h1 with h2 | h2
            · simp [bulFlush] at h2
            · exact Or.inr (List.mem_cons_of_mem _ h2)

theorem bulletGo_id {l : List Char} (h : ∀ c ∈ l, isBullet c = false) :
    bulletGo .norm l = l ∧ ∀ ws, bulletGo (.start ws) l = ws ++ l := by
  induction l with
  | nil => exact ⟨rfl, fun ws => by simp [bulletGo, bulFlush]⟩
  | cons d cs ih =>
    have hd : isBullet d = false := h d (List.mem_cons_self _ _)
    have ihr := ih (fun c hc => h c (List.mem_cons_of_mem _ hc))
    constructor
    · simp only [bulletGo]
      by_cases hn : d = '\n'
      · simp only [hn, if_true]
        rw [ihr.2 []]
        simp
      · simp only [hn, if_false]
        rw [ihr.1]
    · intro ws
      simp only [bulletGo]
      by_cases hsp : isPySpace d
      · simp only [hsp, if_true]
        rw [ihr.2 (ws ++ [d])]
        simp
      · simp only [hsp, if_false, Bool.false_eq_true, hd]
        rw [ihr.1]

theorem mapIdOn {l : List Char} {g : Char → Char} (h : ∀ c ∈ l, g c = c) :
    l.map g = l := by
  induction l with
  | nil => rfl
  | cons d cs ih =>
    simp only [List.map_cons, h d (List.mem_cons_self _ _)]
    rw [ih (fun c hc => h c (List.mem_cons_of_mem _ hc))]

theorem mem_dropStart {p : Char → Bool} {l : List Char} {c : Char}
    (h : c ∈ dropStart p l) : c ∈ l := by
  induction l with
  | nil => simpa [dropStart] using h
  | cons d cs ih =>
    simp only [dropStart] at h
    by_cases hd : p d
    · simp only [hd, if_true] at h; exact List.mem_cons_of_mem _ (ih h)
    · simpa [hd] using h

theorem mem_dropEnd {p : Char → Bool} {l : List Char} {c : Char}
    (h : c ∈ dropEnd p l) : c ∈ l := by
  induction l with
  | nil => simpa [dropEnd] using h
  | cons d cs ih =>
    simp only [dropEnd] at h
    split at h
    · simp at h
    · rcases List.mem_cons.mp h with h1 | h1
      · exact h1 ▸ List.mem_cons_self _ _
      · exact List.mem_cons_of_mem _ (ih h1)

theorem dropStart_id {p : Char → Bool} {l : List Char} (h : headOkB p l = true) :
    dropStart p l = l := by
  cases l with
  | nil => rfl
  | cons c cs =>
    have : p c = false := by simpa [headOkB] using h
    simp [dropStart, this]

theorem dropEnd_id {p : Char → Bool} {l : List Char} (h : lastOkB p l = true) :
    dropEnd p l = l := by
  induction l with
  | nil => rfl
  | cons c cs ih =>
    cases cs with
    | nil =>
      have : p c = false := by simpa [lastOkB] using h
      simp [dropEnd, this]
    | cons d rest =>
      have h2 : lastOkB p (d :: rest) = true := by simpa [lastOkB] using h
      have h3 := ih h2
      show (if (dropEnd p (d :: rest)).isEmpty && p c then [] else c :: dropEnd p (d :: rest)) =
        c :: d :: rest
      rw [h3]
      simp

theorem headOk_dropStart (p : Char → Bool) (l : List Char) :
    headOkB p (dropStart p l) = true := by
  induction l with
  | nil => rfl
  | cons c cs ih =>
    simp only [dropStart]
    by_cases hc : p c
    · simpa [hc] using ih
    · simp [headOkB, hc]

theorem dropEnd_shape (p : Char → Bool) (c : Char) (cs : List Char) :
    dropEnd p (c :: cs) = [] ∨ ∃ r, dropEnd p (c :: cs) = c :: r := by
  simp only [dropEnd]
  split
  · exact Or.inl rfl
  · exact Or.inr ⟨_, rfl⟩

theorem lastOk_dropEnd (p : Char → Bool) (l : List Char) :
    lastOkB p (dropEnd p l) = true := by
  induction l with
  | nil => rfl
  | cons c cs ih =>
    simp only [dropEnd]
    split
    · rfl
    · rename_i hcond
      cases hr : dropEnd p cs with
      | nil =>
        rw [hr] at hcond
        simp only [List.isEmpty_nil, Bool.true_and] at hcond
        simp [lastOkB, hcond]
      | cons d rest =>
        rw [hr] at ih
        simpa [lastOkB] using ih

theorem headOk_dropEnd {p : Char → Bool} {l : List Char} (h : headOkB p l = true) :
    headOkB p (dropEnd p l) = true := by
  cases l with
  | nil => rfl
  | cons c cs =>
    rcases dropEnd_shape p c cs with h1 | ⟨r, h1⟩
    · rw [h1]; rfl
    · rw [h1]; simpa [headOkB] using h

theorem noAdj_dropStart {p : Char → Bool} {l : List Char}
    (h : noAdjB p l = true) : noAdjB p (dropStart p l) = true := by
  induction l with
  | nil => rfl
  | cons c cs ih =>
    simp only [dropStart]
    by_cases hc : p c
    · simp only [hc, if_true]; exact ih (noAdjB_tail h)
    · simpa [hc] using h

theorem noAdj_dropEnd {p : Char → Bool} {l : List Char}
    (h : noAdjB p l = true) : noAdjB p (dropEnd p l) = true := by
  induction l with
  | nil => rfl
  | cons c cs ih =>
    simp only [dropEnd]
    split
    · rfl
    · have ihe := ih (noAdjB_tail h)
      cases cs with
      | nil => simp [dropEnd, noAdjB]
      | cons d rest =>
        rcases dropEnd_shape p d rest with h1 | ⟨r, h1⟩
        · rw [h1]; rfl
        · rw [h1]
          rw [h1] at ihe
          simp only [noAdjB, Bool.and_eq_true] at h ihe ⊢
          exact ⟨h.1, ihe⟩

theorem isS1_space : isS1 ' ' = false := rfl

theorem ne_hash_of_isS1 {c : Char} (h : isS1 c = false) : c ≠ '#' := by
  intro hc; subst hc; simp [isS1] at h

theorem isBullet_false_of_isS1 {c : Char} (h : isS1 c = false) : isBullet c = false := by
  cases hb : isBullet c
  · rfl
  · simp only [isBullet, Bool.or_eq_true, decide_eq_true_eq] at hb
    rcases hb with hb | hb <;> (subst hb; simp [isS1] at h)

theorem cleanBody_chars {l : List Char} {c : Char}
    (h : c ∈ replaceRuns (fun c => c = '/')
      (bulletSub (hashSub ((replaceRuns isS1 l).map (fun c => if isS2 c then ' ' else c))))) :
    isS1 c = false ∧ isS2 c = false ∧ c ≠ '/' := by
  have hsp : isS1 ' ' = false ∧ isS2 ' ' = false ∧ ' ' ≠ '/' := by
    refine ⟨rfl, rfl, ?_⟩; decide
  rcases mem_runsGo h with h1 | ⟨h1, hslash⟩
  · exact h1 ▸ hsp
  · rcases mem_bulletGo _ h1 with h2 | h2
    · simp [bulFlush] at h2
    · rcases mem_hashGo h2 with h3 | ⟨h3, _⟩
      · exact h3 ▸ hsp
      · rcases List.mem_map.mp h3 with ⟨d, hd, hgd⟩
        by_cases hs2 : isS2 d
        · rw [← hgd]; simp only [hs2, if_true]; exact hsp
        · have hcd : c = d := by rw [← hgd]; simp [hs2]
          subst hcd
          rcases mem_runsGo hd with h4 | ⟨_, h4⟩
          · exact h4 ▸ hsp
          · refine ⟨h4, by simpa using hs2, ?_⟩
            have : decide (c = '/') = false := hslash
            simpa using this

theorem cleanL_chars {l : List Char} {c : Char} (h : c ∈ cleanL l) :
    (isS1 c = false ∧ isS2 c = false ∧ c ≠ '/') ∧ (isPySpace c = true → c = ' ') := by
  have h1 : c ∈ runsGo isPySpace false
      (replaceRuns (fun c => c = '/')
        (bulletSub (hashSub ((replaceRuns isS1 l).map (fun c => if isS2 c then ' ' else c))))) :=
    mem_dropStart (mem_dropEnd h)
  rcases mem_runsGo h1 with h2 | ⟨h2, hws⟩
  · subst h2
    exact ⟨⟨rfl, rfl, by decide⟩, fun _ => rfl⟩
  · exact ⟨cleanBody_chars h2, fun hc => by rw [hws] at hc; cases hc⟩

theorem cleanL_noAdj (l : List Char) : noAdjB isPySpace (cleanL l) = true :=
  noAdj_dropEnd (noAdj_dropStart (noAdj_runsGo _ _ false))

theorem cleanL_headOk (l : List Char) : headOkB isPySpace (cleanL l) = true :=
  headOk_dropEnd (headOk_dropStart _ _)

theorem cleanL_lastOk (l : List Char) : lastOkB isPySpace (cleanL l) = true :=
  lastOk_dropEnd _ _

theorem cleanL_id {l : List Char}
    (hchars : ∀ c ∈ l, (isS1 c = false ∧ isS2 c = false ∧ c ≠ '/') ∧
      (isPySpace c = true → c = ' '))
    (hadj : noAdjB isPySpace l = true)
    (hhead : headOkB isPySpace l = true)
    (hlast : lastOkB isPySpace l = true) :
    cleanL l = l := by
  unfold cleanL
  rw [show replaceRuns isS1 l = l from
        runsGo_id (fun c hc => (hchars c hc).1.1) false]
  rw [mapIdOn (fun c hc => by simp [(hchars c hc).1.2.1])]
  rw [show hashSub l = l from hashGo_id (fun c hc => ne_hash_of_isS1 (hchars c hc).1.1) 0]
  rw [show bulletSub l = l from
        (bulletGo_id (fun c hc => isBullet_false_of_isS1 (hchars c hc).1.1)).2 []]
  rw [show replaceRuns (fun c => c = '/') l = l from
        runsGo_id (fun c hc => by simpa using (hchars c hc).1.2.2) false]
  rw [show replaceRuns isPySpace l = l from
        collapse_id (fun c hc => (hchars c hc).2) hadj]
  unfold pyStripL
  rw [dropStart_id hhead, dropEnd_id hlast]

theorem cleanL_idem (l : List Char) : cleanL (cleanL l) = cleanL l :=
  cleanL_id (fun c hc => cleanL_chars hc) (cleanL_noAdj l) (cleanL_headOk l) (cleanL_lastOk l)

theorem pySplitGo_append (a : List Char) :
    ∀ cur b, pySplitGo cur (a ++ ' ' :: b) = pySplitGo cur a ++ pySplitGo [] b := by
  have hsp : isPySpace ' ' = true := rfl
  induction a with
  | nil =>
    intro cur b
    show pySplitGo cur (' ' :: b) = pySplitGo cur [] ++ pySplitGo [] b
    by_cases hc : cur.isEmpty <;> simp [pySplitGo, hc, hsp]
  | cons c cs ih =>
    intro cur b
    show pySplitGo cur (c :: (cs ++ ' ' :: b)) = pySplitGo cur (c :: cs) ++ pySplitGo [] b
    by_cases hc : isPySpace c
    · by_cases hcur : cur.isEmpty <;> simp [pySplitGo, hc, hcur, ih]
    · simp [pySplitGo, hc, ih]

theorem pySplitGo_nospace {w : List Char} (h : ∀ c ∈ w, isPySpace c = false) :
    ∀ cur, pySplitGo cur w = if (cur.reverse ++ w).isEmpty then [] else [cur.reverse ++ w] := by
  induction w with
  | nil =>
    intro cur
    cases cur with
    | nil => rfl
    | cons d ds => simp [pySplitGo]
  | cons c cs ih =>
    intro cur
    have hc : isPySpace c = false := h c (List.mem_cons_self _ _)
    simp only [pySplitGo, hc, Bool.false_eq_true, if_false]
    rw [ih (fun d hd => h d (List.mem_cons_of_mem _ hd))]
    simp

theorem pySplitGo_words {l : List Char} :
    ∀ cur, (∀ c ∈ cur, isPySpace c = false) →
      ∀ w ∈ pySplitGo cur l, w ≠ [] ∧ ∀ c ∈ w, isPySpace c = false := by
  induction l with
  | nil =>
    intro cur hcur w hw
    simp only [pySplitGo] at hw
    split at hw
    · simp at hw
    · rename_i hne
      simp only [List.mem_singleton] at hw
      subst hw
      refine ⟨by simpa [List.isEmpty_iff] using hne, ?_⟩
      intro c hc
      exact hcur c (by simpa using hc)
  | cons d cs ih =>
    intro cur hcur w hw
    simp only [pySplitGo] at hw
    by_cases hd : isPySpace d
    · simp only [hd, if_true] at hw
      by_cases hcure : cur.isEmpty
      · simp only [hcure, if_true] at hw
        exact ih [] (by simp) w hw
      · simp only [hcure, if_false] at hw
        rcases List.mem_cons.mp hw with h1 | h1
        · subst h1
          refine ⟨by simpa [List.isEmpty_iff] using hcure, ?_⟩
          intro c hc
          exact hcur c (by simpa using hc)
        · exact ih [] (by simp) w h1
    · simp only [hd, if_false, Bool.false_eq_true] at hw
      refine ih (d :: cur) ?_ w hw
      intro c hc
      rcases List.mem_cons.mp hc with h1 | h1
      · subst h1; simpa using hd
      · exact hcur c h1

theorem joinSpaceL_split : ∀ ws : List (List Char),
    pySplitL (joinSpaceL ws) = ws.flatMap pySplitL := by
  intro ws
  induction ws with
  | nil => rfl
  | cons w rest ih =>
    cases rest with
    | nil => simp [joinSpaceL]
    | cons y r =>
      show pySplitL (w ++ ' ' :: joinSpaceL (y :: r)) = _
      unfold pySplitL
      rw [pySplitGo_append]
      rw [show pySplitGo [] (joinSpaceL (y :: r)) = pySplitL (joinSpaceL (y :: r)) from rfl, ih]
      rw [List.flatMap_cons]
      rfl

theorem flatMap_single {g : List (List Char)} (h : ∀ w ∈ g, pySplitL w = [w]) :
    g.flatMap pySplitL = g := by
  induction g with
  | nil => rfl
  | cons w rest ih =>
    simp only [List.flatMap_cons, h w (List.mem_cons_self _ _)]
    rw [ih (fun v hv => h v (List.mem_cons_of_mem _ hv))]
    rfl

theorem chunkGo_flatten {α : Type} (n : Nat) :
    ∀ (l cur : List α) (k : Nat), (chunkGo n cur k l).flatten = cur.reverse ++ l := by
  intro l
  induction l with
  | nil =>
    intro cur k
    by_cases hc : cur.isEmpty
    · simp [chunkGo, hc, List.isEmpty_iff.mp hc]
    · simp [chunkGo, hc]
  | cons x xs ih =>
    intro cur k
    by_cases hk : k = 0
    · simp only [chunkGo, hk, if_true, List.flatten_cons, ih]
      simp
    · simp only [chunkGo, hk, if_false, ih]
      simp

theorem mem_chunkGo {α : Type} {n : Nat} {x : α} :
    ∀ {l cur : List α} {k : Nat} {g : List α},
      g ∈ chunkGo n cur k l → x ∈ g → x ∈ cur ∨ x ∈ l := by
  intro l
  induction l with
  | nil =>
    intro cur k g hg hx
    simp only [chunkGo] at hg
    split at hg
    · simp at hg
    · simp only [List.mem_singleton] at hg
      subst hg
      exact Or.inl (by simpa using hx)
  | cons y ys ih =>
    intro cur k g hg hx
    simp only [chunkGo] at hg
    split at hg
    · rcases List.mem_cons.mp hg with h1 | h1
      · subst h1
        exact Or.inl (by simpa using hx)
      · rcases ih h1 hx with h2 | h2
        · simp only [List.mem_singleton] at h2
          exact Or.inr (h2 ▸ List.mem_cons_self _ _)
        · exact Or.inr (List.mem_cons_of_mem _ h2)
    · rcases ih hg hx with h2 | h2
      · rcases List.mem_cons.mp h2 with h3 | h3
        · exact Or.inr (h3 ▸ List.mem_cons_self _ _)
        · exact Or.inl h3
      · exact Or.inr (List.mem_cons_of_mem _ h2)

theorem chunk_words_pres (s : String) :
    ((chunk_text_by_words s).map (fun p => pySplitL p.data)).flatten = pySplitL s.data := by
  unfold chunk_text_by_words
  rw [List.map_map]
  have hW : ∀ w ∈ pySplitL s.data, w ≠ [] ∧ ∀ c ∈ w, isPySpace c = false :=
    pySplitGo_words [] (by simp)
  have key : ∀ g ∈ chunksOf 6 (pySplitL s.data),
      pySplitL (String.mk (joinSpaceL g)).data = g.flatMap pySplitL := by
    intro g _
    exact joinSpaceL_split g
  have key2 : ∀ g ∈ chunksOf 6 (pySplitL s.data), g.flatMap pySplitL = g := by
    intro g hg
    refine flatMap_single ?_
    intro w hw
    have hwW : w ∈ pySplitL s.data := by
      rcases mem_chunkGo hg hw with h | h
      · simp at h
      · exact h
    rcases hW w hwW with ⟨hne, hns⟩
    unfold pySplitL
    rw [pySplitGo_nospace hns []]
    simp [List.isEmpty_iff, hne]
  calc ((chunksOf 6 (pySplitL s.data)).map
          ((fun p => pySplitL p.data) ∘ fun g => String.mk (joinSpaceL g))).flatten
      = ((chunksOf 6 (pySplitL s.data)).map id).flatten := by
        congr 1
        refine List.map_congr_left ?_
        intro g hg
        show pySplitL (String.mk (joinSpaceL g)).data = g
        rw [show (String.mk (joinSpaceL g)).data = joinSpaceL g from rfl]
        rw [joinSpaceL_split g, key2 g hg]
    _ = pySplitL s.data := by
        rw [List.map_id]
        exact chunkGo_flatten 6 _ [] 6

theorem bufferWordCount_sum (buf : List String) :
    bufferWordCount buf = (buf.map (fun f => (pySplitL f.data).length)).sum := by
  unfold bufferWordCount
  rw [show joinSpaceL (buf.map String.data) = joinSpaceL (buf.map String.data) from rfl]
  rw [joinSpaceL_split]
  induction buf with
  | nil => rfl
  | cons f rest ih =>
    simp only [List.map_cons, List.flatMap_cons, List.length_append, List.sum_cons]
    rw [ih]


theorem jGet_setField_ne {fs : List (String × J)} {k1 k2 : String} {v : J}
    (h : k1 ≠ k2) : jGet (setField fs k2 v) k1 = jGet fs k1 := by
  induction fs with
  | nil => simp [setField, jGet, Ne.symm h]
  | cons kv rest ih =>
    obtain ⟨k3, w⟩ := kv
    simp only [setField]
    by_cases h3 : k3 = k2
    · subst h3
      simp only [if_true]
      show jGet ((k3, v) :: rest) k1 = jGet ((k3, w) :: rest) k1
      have hne : ¬ (k3 = k1) := fun hc => h hc.symm
      simp [jGet, hne]
    · simp only [h3, if_false]
      show jGet ((k3, w) :: setField rest k2 v) k1 = jGet ((k3, w) :: rest) k1
      by_cases h1 : k3 = k1
      · simp [jGet, h1]
      · simp [jGet, h1, ih]

theorem isTextChunk_audioChunk (sid b64 : String) :
    isTextChunkFrame (.ev (audioChunk sid b64)) = false := rfl

theorem isDone_audioChunk (sid b64 : String) :
    isDone (.ev (audioChunk sid b64)) = false := rfl

theorem isAudio_audioChunk (sid b64 : String) :
    isAudioChunkFrame (.ev (audioChunk sid b64)) = true := rfl

theorem audioFrames_classify {sid fmt s : String} :
    ∀ f ∈ audioFrames sid fmt s, isDone f = false ∧ isTextChunkFrame f = false := by
  intro f hf
  rcases List.mem_map.mp hf with ⟨b64, _, hb⟩
  subst hb
  exact ⟨rfl, rfl⟩

theorem topLevel_no_emit (sid : String) (st : LoopState) (fs : List (String × J)) :
    (topLevelHandling false sid st fs).2 = [] := by
  unfold topLevelHandling
  split <;> rfl

theorem deltaOf_audio_decompose {fs : List (String × J)} {df : List (String × J)}
    (hdel : deltaOf (jGetD fs "choices" (.arr [])) = .ok (.obj df))
    (haud : truthy (jGetD df "audio" .null) = true) :
    ∃ c0f rest, jGet fs "choices" = some (.arr (.obj c0f :: rest)) ∧
      jGet c0f "delta" = some (.obj df) := by
  unfold deltaOf at hdel
  by_cases ht : truthy (jGetD fs "choices" (.arr [])) = true
  · rw [if_pos ht] at hdel
    cases hch : jGetD fs "choices" (.arr []) with
    | arr xs =>
      cases xs with
      | nil => rw [hch] at ht; simp [truthy] at ht
      | cons c0 rest =>
        cases c0 with
        | obj c0f =>
          rw [hch] at hdel
          simp only [Except.ok.injEq] at hdel
          refine ⟨c0f, rest, ?_, ?_⟩
          · unfold jGetD at hch
            cases hg : jGet fs "choices" with
            | none => rw [hg] at hch; simp at hch
            | some v =>
              rw [hg] at hch
              simp only [Option.getD_some] at hch
              subst hch
              rfl
          · unfold jGetD at hdel
            cases hg : jGet c0f "delta" with
            | none =>
              exfalso
              rw [hg] at hdel
              simp only [Option.getD_none, J.obj.injEq] at hdel
              cases hdel
              simp [jGetD, jGet, truthy] at haud
            | some v =>
              rw [hg] at hdel
              simp only [Option.getD_some] at hdel
              subst hdel
              rfl
        | null => rw [hch] at hdel; simp at hdel
        | jbool b => rw [hch] at hdel; simp at hdel
        | num n => rw [hch] at hdel; simp at hdel
        | str s2 => rw [hch] at hdel; simp at hdel
        | arr ys => rw [hch] at hdel; simp at hdel
    | null => rw [hch] at hdel; simp at hdel
    | jbool b => rw [hch] at hdel; simp at hdel
    | num n => rw [hch] at hdel; simp at hdel
    | str s2 => rw [hch] at hdel; simp at hdel
    | obj g => rw [hch] at hdel; simp at hdel
  · rw [if_neg ht] at hdel
    simp only [Except.ok.injEq, J.obj.injEq] at hdel
    cases hdel
    simp [jGetD, jGet, truthy] at haud

theorem processLine_frames_audio {wa : Bool} {sid : String} {st : LoopState}
    {line : RawLine} {st2 : LoopState} {fr : List Frame}
    (h : processLine false wa sid st line = .ok (st2, fr)) :
    ∀ f ∈ fr, isDone f = false ∧ isTextChunkFrame f = false := by
  cases line with
  | blank =>
    simp only [processLine, Except.ok.injEq, Prod.mk.injEq] at h
    rw [← h.2]
    intro f hf
    simp at hf
  | textLine s =>
    simp only [processLine, Bool.false_eq_true, if_false, Except.ok.injEq, Prod.mk.injEq] at h
    rw [← h.2]
    intro f hf
    simp at hf
  | jsonObj fs =>
    simp only [processLine] at h
    split at h
    · -- isChunkObject true
      split at h
      · -- deltaOf error
        simp at h
      · -- deltaOf ok delta
        rename_i delta hdel
        split at h
        · -- delta = .obj df
          rename_i df
          split at h
          · -- audio truthy
            rename_i haud
            simp only [Except.ok.injEq, Prod.mk.injEq] at h
            rw [← h.2]
            intro f hf
            simp only [List.mem_singleton] at hf
            subst hf
            refine ⟨rfl, ?_⟩
            rcases deltaOf_audio_decompose hdel haud with ⟨c0f, rest, hch, hdl⟩
            have hne : jGet (setField fs "id" (J.str sid)) "choices" = jGet fs "choices" :=
              jGet_setField_ne (by decide)
            simp only [isTextChunkFrame, deltaObjOf, hne, hch, hdl, haud]
            simp
          · -- audio falsy
            split at h
            · -- content str piece
              split at h
              · -- flush some
                simp only [Bool.false_and, Bool.false_eq_true, if_false,
                  Except.ok.injEq, Prod.mk.injEq] at h
                rw [← h.2]
                intro f hf
                simp at hf
              · -- flush none
                simp only [Except.ok.injEq, Prod.mk.injEq] at h
                rw [← h.2]
                intro f hf
                simp at hf
            · -- content obj dcf
              split at h
              · -- firstTruthy some
                simp only [Bool.false_eq_true, if_false, Except.ok.injEq, Prod.mk.injEq] at h
                rw [← h.2]
                intro f hf
                simp at hf
              · -- firstTruthy none -> topLevel
                simp only [Except.ok.injEq] at h
                have hfr : (topLevelHandling false sid st fs).2 = fr := by rw [h]
                intro f hf
                rw [← hfr, topLevel_no_emit] at hf
                simp at hf
            · -- content other -> topLevel
              simp only [Except.ok.injEq] at h
              have hfr : (topLevelHandling false sid st fs).2 = fr := by rw [h]
              intro f hf
              rw [← hfr, topLevel_no_emit] at hf
              simp at hf
        · -- delta non-obj -> error
          simp at h
    · -- not chunk object -> topLevel
      simp only [Except.ok.injEq] at h
      have hfr : (topLevelHandling false sid st fs).2 = fr := by rw [h]
      intro f hf
      rw [← hfr, topLevel_no_emit] at hf
      simp at hf

theorem runLines_frames_audio {wa : Bool} {sid : String} :
    ∀ (lines : List RawLine) (st : LoopState),
      ∀ f ∈ (runLines false wa sid st lines).2.1,
        isDone f = false ∧ isTextChunkFrame f = false := by
  intro lines
  induction lines with
  | nil => intro st f hf; simp [runLines] at hf
  | cons l rest ih =>
    intro st f hf
    simp only [runLines] at hf
    cases hpl : processLine false wa sid st l with
    | error e => rw [hpl] at hf; simp at hf
    | ok pr =>
      obtain ⟨pst, pfr⟩ := pr
      rw [hpl] at hf
      simp only [List.mem_append] at hf
      rcases hf with hf | hf
      · exact processLine_frames_audio hpl f hf
      · exact ih pst f hf

theorem successTail_frames {wa : Bool} {sid fmt : String} {agg : List String}
    {q : QueryResult} {fr : List Frame} (h : successTail wa sid fmt agg q = .ok fr) :
    ∀ f ∈ fr, isDone f = false ∧ isTextChunkFrame f = false := by
  have hnone : ∀ f ∈ (if pyStripS (joinSpaceS agg) = "" then ([] : List Frame)
      else audioFrames sid fmt (clean_text_for_tts (pyStripS (joinSpaceS agg)))),
      isDone f = false ∧ isTextChunkFrame f = false := by
    by_cases he : pyStripS (joinSpaceS agg) = ""
    · rw [if_pos he]; intro f hf; simp at hf
    · rw [if_neg he]; exact audioFrames_classify
  by_cases hwa : wa = true
  · subst hwa
    unfold successTail at h
    simp only [if_true] at h
    cases q with
    | qfail msg =>
      simp only [Except.ok.injEq] at h
      subst h
      exact hnone
    | qok status body rt =>
      by_cases hs : status = 200
      · subst hs
        simp only [if_pos rfl] at h
        cases hft : firstTruthy [jGet body "response", jGet body "answer",
            jGet body "result"] with
        | none =>
          rw [hft] at h
          replace h : Except.ok (if pyStripS (joinSpaceS agg) = "" then ([] : List Frame)
              else audioFrames sid fmt (clean_text_for_tts (pyStripS (joinSpaceS agg)))) =
              Except.ok fr := h
          simp only [Except.ok.injEq] at h
          subst h
          exact hnone
        | some v =>
          rw [hft] at h
          cases v with
          | str s =>
            replace h : Except.ok (audioFrames sid fmt (clean_text_for_tts s)) =
                Except.ok fr := h
            simp only [Except.ok.injEq] at h
            subst h
            exact audioFrames_classify
          | null => simp at h
          | jbool b => simp at h
          | num n => simp at h
          | arr xs => simp at h
          | obj g => simp at h
      · simp only [if_neg hs] at h
        simp only [Except.ok.injEq] at h
        subst h
        exact hnone
  · have hwf : wa = false := by simpa using hwa
    subst hwf
    unfold successTail at h
    simp only [Bool.false_eq_true, if_false, Except.ok.injEq] at h
    subst h
    intro f hf
    simp at hf

theorem chunkGo_ne_nil {α : Type} {n : Nat} :
    ∀ {l cur : List α} {k : Nat}, l ≠ [] ∨ cur ≠ [] → chunkGo n cur k l ≠ [] := by
  intro l
  induction l with
  | nil =>
    intro cur k h
    rcases h with h | h
    · exact absurd rfl h
    · simp only [chunkGo]
      intro hc
      split at hc
      · rename_i he
        exact h (List.isEmpty_iff.mp he)
      · simp at hc
  | cons x xs ih =>
    intro cur k h
    simp only [chunkGo]
    split
    · simp
    · exact ih (Or.inr (by simp))

theorem audioFrames_ne_nil {sid fmt s : String} (h : strBytes s ≠ []) :
    audioFrames sid fmt s ≠ [] := by
  unfold audioFrames make_audio_base64_chunks tts_synthesize_bytes chunksOf
  intro hc
  simp only [List.map_eq_nil_iff] at hc
  exact chunkGo_ne_nil (Or.inl h) hc

theorem audioFrames_has_audio {sid fmt s : String} (h : strBytes s ≠ []) :
    ∃ f ∈ audioFrames sid fmt s, isAudioChunkFrame f = true := by
  cases hf : audioFrames sid fmt s with
  | nil => exact absurd hf (audioFrames_ne_nil h)
  | cons f rest =>
    refine ⟨f, by simp [hf], ?_⟩
    have : f ∈ audioFrames sid fmt s := by simp [hf]
    rcases List.mem_map.mp this with ⟨b64, _, hb⟩
    rw [← hb]
    rfl

/-- The string the fallback reads from a 200 body: the first truthy of
response/answer/result when it is a string, else the dumped body. -/
def extractAnswer (body : List (String × J)) : String :=
  match firstTruthy [jGet body "response", jGet body "answer", jGet body "result"] with
  | some (.str s) => s
  | _ => jdump (.obj body)

/-- The queried body is contract-shaped: on a 200 response the first truthy
of its response/answer/result fields, when present, is a string (so the
Python code does not crash chunking or cleaning it). -/
def goodAnswerB : QueryResult → Bool
  | .qfail _ => true
  | .qok status body _ =>
    if status = 200 then
      match firstTruthy [jGet body "response", jGet body "answer", jGet body "result"] with
      | some (.str _) => true
      | some _ => false
      | none => true
    else true

theorem countP_zero_of {p : Frame → Bool} {l : List Frame}
    (h : ∀ f ∈ l, p f = false) : l.countP p = 0 := by
  induction l with
  | nil => rfl
  | cons f rest ih =>
    rw [List.countP_cons, h f (List.mem_cons_self _ _),
        ih (fun g hg => h g (List.mem_cons_of_mem _ hg))]
    simp

theorem countText_err_pair (sid x : String) :
    countTextChunks [.ev (contentChunk sid x), .done] = 1 := rfl

theorem countDone_err_chunk (sid x : String) :
    countDone [Frame.ev (contentChunk sid x)] = 0 := rfl

theorem fallbackRun_audio_only {sid fmt : String} {q : QueryResult}
    (hq : goodAnswerB q = true) :
    (fallbackRun false true sid fmt q).2 = false ∧
    (∃ pre, (fallbackRun false true sid fmt q).1 = pre ++ [Frame.done] ∧ countDone pre = 0) ∧
    countTextChunks (fallbackRun false true sid fmt q).1 ≤ 1 ∧
    (∀ status body rt, q = .qok status body rt → status = 200 →
      countTextChunks (fallbackRun false true sid fmt q).1 = 0 ∧
      (strBytes (clean_text_for_tts (extractAnswer body)) ≠ [] →
        ∃ f ∈ (fallbackRun false true sid fmt q).1, isAudioChunkFrame f = true)) := by
  cases q with
  | qfail msg =>
    refine ⟨rfl, ⟨[.ev (contentChunk sid ("LightRAG request failed: " ++ msg))], rfl,
      countDone_err_chunk _ _⟩, ?_, ?_⟩
    · rw [show (fallbackRun false true sid fmt (.qfail msg)).1 =
          [.ev (contentChunk sid ("LightRAG request failed: " ++ msg)), .done] from rfl]
      rw [countText_err_pair]
    · intro status body rt hq2
      cases hq2
  | qok status body rt =>
    by_cases hs : status = 200
    · subst hs
      have hft : (firstTruthy [jGet body "response", jGet body "answer",
          jGet body "result"]).getD (.str (jdump (.obj body))) = .str (extractAnswer body) := by
        unfold extractAnswer
        simp only [goodAnswerB, if_pos rfl] at hq
        cases hft2 : firstTruthy [jGet body "response", jGet body "answer", jGet body "result"] with
        | none => rfl
        | some v =>
          rw [hft2] at hq
          cases v with
          | str s => rfl
          | null => simp at hq
          | jbool b => simp at hq
          | num n => simp at hq
          | arr xs => simp at hq
          | obj g => simp at hq
      have hrun : fallbackRun false true sid fmt (.qok 200 body rt) =
          (audioFrames sid fmt (clean_text_for_tts (extractAnswer body)) ++ [.done], false) := by
        simp only [fallbackRun, if_pos rfl, hft]
        simp
      rw [hrun]
      refine ⟨rfl, ⟨audioFrames sid fmt (clean_text_for_tts (extractAnswer body)), rfl,
        countP_zero_of (fun f hf => (audioFrames_classify f hf).1)⟩, ?_, ?_⟩
      · have h0 : countTextChunks
            (audioFrames sid fmt (clean_text_for_tts (extractAnswer body)) ++ [Frame.done]) = 0 := by
          refine countP_zero_of ?_
          intro f hf
          rcases List.mem_append.mp hf with hf | hf
          · exact (audioFrames_classify f hf).2
          · simp only [List.mem_singleton] at hf
            subst hf
            rfl
        rw [h0]
        exact Nat.zero_le 1
      · intro status2 body2 rt2 hq2 _
        have hb : body2 = body := by cases hq2; rfl
        subst hb
        constructor
        · refine countP_zero_of ?_
          intro f hf
          rcases List.mem_append.mp hf with hf | hf
          · exact (audioFrames_classify f hf).2
          · simp only [List.mem_singleton] at hf
            subst hf
            rfl
        · intro hbytes
          rcases @audioFrames_has_audio sid fmt _ hbytes with ⟨f, hf, ha⟩
          exact ⟨f, List.mem_append.mpr (Or.inl hf), ha⟩
    · have hrun : fallbackRun false true sid fmt (.qok status body rt) =
          ([.ev (contentChunk sid ("LightRAG error: " ++ toString status)), .done], false) := by
        simp only [fallbackRun, if_neg hs]
      rw [hrun]
      refine ⟨rfl, ⟨[.ev (contentChunk sid ("LightRAG error: " ++ toString status))], rfl,
        countDone_err_chunk _ _⟩, ?_, ?_⟩
      · rw [countText_err_pair]
      · intro status2 body2 rt2 hq2 hs2
        cases hq2
        exact absurd hs2 hs

/-- The text the post-stream synthesis block (lines 338-354) feeds to the
synthesizer, when any: the re-query's string answer when the re-query
returns 200 with a truthy answer field, else the stripped space-join of the
aggregated parts when non-empty.  `none` both when there is nothing to
synthesize and when the truthy re-query answer is a non-string (where the
block raises instead of synthesizing). -/
def synthText (agg : List String) (q : QueryResult) : Option String :=
  match (match q with
         | .qfail _ => none
         | .qok status body _ =>
           if status = 200 then
             firstTruthy [jGet body "response", jGet body "answer", jGet body "result"]
           else none) with
  | some (.str s) => some s
  | some _ => none
  | none =>
    let ft := pyStripS (joinSpaceS agg)
    if ft = "" then none else some ft

theorem successTail_synth {sid fmt : String} {agg : List String} {q : QueryResult}
    {t : String} (hsyn : synthText agg q = some t) :
    successTail true sid fmt agg q = .ok (audioFrames sid fmt (clean_text_for_tts t)) := by
  have hnonearm : (if pyStripS (joinSpaceS agg) = "" then none
        else some (pyStripS (joinSpaceS agg))) = some t →
      (Except.ok (if pyStripS (joinSpaceS agg) = "" then ([] : List Frame)
        else audioFrames sid fmt (clean_text_for_tts (pyStripS (joinSpaceS agg)))) :
        Except Unit (List Frame)) =
      Except.ok (audioFrames sid fmt (clean_text_for_tts t)) := by
    intro hs2
    by_cases he : pyStripS (joinSpaceS agg) = ""
    · rw [if_pos he] at hs2; simp at hs2
    · rw [if_neg he] at hs2
      simp only [Option.some.injEq] at hs2
      subst hs2
      rw [if_neg he]
  unfold synthText at hsyn
  cases q with
  | qfail msg =>
    replace hsyn : (if pyStripS (joinSpaceS agg) = "" then none
        else some (pyStripS (joinSpaceS agg))) = some t := hsyn
    show (Except.ok (if pyStripS (joinSpaceS agg) = "" then ([] : List Frame)
        else audioFrames sid fmt (clean_text_for_tts (pyStripS (joinSpaceS agg)))) :
        Except Unit (List Frame)) =
      Except.ok (audioFrames sid fmt (clean_text_for_tts t))
    exact hnonearm hsyn
  | qok status body rt =>
    by_cases hs : status = 200
    · subst hs
      simp only [if_pos rfl] at hsyn
      cases hft : firstTruthy [jGet body "response", jGet body "answer",
          jGet body "result"] with
      | none =>
        rw [hft] at hsyn
        replace hsyn : (if pyStripS (joinSpaceS agg) = "" then none
            else some (pyStripS (joinSpaceS agg))) = some t := hsyn
        have h1 : successTail true sid fmt agg (QueryResult.qok 200 body rt) =
            (match firstTruthy [jGet body "response", jGet body "answer",
                jGet body "result"] with
             | some (J.str s) => Except.ok (audioFrames sid fmt (clean_text_for_tts s))
             | some _ => Except.error ()
             | none => Except.ok (if pyStripS (joinSpaceS agg) = "" then ([] : List Frame)
                 else audioFrames sid fmt
                   (clean_text_for_tts (pyStripS (joinSpaceS agg))))) := rfl
        rw [h1, hft]
        show (Except.ok (if pyStripS (joinSpaceS agg) = "" then ([] : List Frame)
            else audioFrames sid fmt (clean_text_for_tts (pyStripS (joinSpaceS agg)))) :
            Except Unit (List Frame)) =
          Except.ok (audioFrames sid fmt (clean_text_for_tts t))
        exact hnonearm hsyn
      | some v =>
        rw [hft] at hsyn
        cases v with
        | str s =>
          replace hsyn : some s = some t := hsyn
          simp only [Option.some.injEq] at hsyn
          subst hsyn
          have h1 : successTail true sid fmt agg (QueryResult.qok 200 body rt) =
              (match firstTruthy [jGet body "response", jGet body "answer",
                  jGet body "result"] with
               | some (J.str u) => Except.ok (audioFrames sid fmt (clean_text_for_tts u))
               | some _ => Except.error ()
               | none => Except.ok (if pyStripS (joinSpaceS agg) = "" then ([] : List Frame)
                   else audioFrames sid fmt
                     (clean_text_for_tts (pyStripS (joinSpaceS agg))))) := rfl
          rw [h1, hft]
        | null => exact absurd (show (none : Option String) = some t from hsyn) (by simp)
        | jbool b => exact absurd (show (none : Option String) = some t from hsyn) (by simp)
        | num n => exact absurd (show (none : Option String) = some t from hsyn) (by simp)
        | arr xs => exact absurd (show (none : Option String) = some t from hsyn) (by simp)
        | obj g => exact absurd (show (none : Option String) = some t from hsyn) (by simp)
    · simp only [if_neg hs] at hsyn
      replace hsyn : (if pyStripS (joinSpaceS agg) = "" then none
          else some (pyStripS (joinSpaceS agg))) = some t := hsyn
      have h1 : successTail true sid fmt agg (QueryResult.qok status body rt) =
          (match (if status = 200 then firstTruthy [jGet body "response",
              jGet body "answer", jGet body "result"] else none) with
           | some (J.str s) => Except.ok (audioFrames sid fmt (clean_text_for_tts s))
           | some _ => Except.error ()
           | none => Except.ok (if pyStripS (joinSpaceS agg) = "" then ([] : List Frame)
               else audioFrames sid fmt
                 (clean_text_for_tts (pyStripS (joinSpaceS agg))))) := rfl
      rw [h1, if_neg hs]
      show (Except.ok (if pyStripS (joinSpaceS agg) = "" then ([] : List Frame)
          else audioFrames sid fmt (clean_text_for_tts (pyStripS (joinSpaceS agg)))) :
          Except Unit (List Frame)) =
        Except.ok (audioFrames sid fmt (clean_text_for_tts t))
      exact hnonearm hsyn

theorem streamGenerator_connFail (synthQ fbQ nsQ : QueryResult)
    (mods : Option (List String)) (sid fmt : String) :
    streamGenerator ⟨.connFail, synthQ, fbQ, nsQ⟩ mods sid fmt =
      ⟨(fallbackRun (wantTextOutput (normModalities mods))
          (wantAudioOutput (normModalities mods)) sid fmt fbQ).1,
       (fallbackRun (wantTextOutput (normModalities mods))
          (wantAudioOutput (normModalities mods)) sid fmt fbQ).2, true, []⟩ := rfl

theorem streamGenerator_non200 (synthQ fbQ nsQ : QueryResult)
    (mods : Option (List String)) (sid fmt : String) (status : Nat)
    (lines : List RawLine) (midFail : Bool) (hs : ¬ status = 200) :
    streamGenerator ⟨.connOk status lines midFail, synthQ, fbQ, nsQ⟩ mods sid fmt =
      ⟨(fallbackRun (wantTextOutput (normModalities mods))
          (wantAudioOutput (normModalities mods)) sid fmt fbQ).1,
       (fallbackRun (wantTextOutput (normModalities mods))
          (wantAudioOutput (normModalities mods)) sid fmt fbQ).2, true, []⟩ := by
  simp only [streamGenerator]
  rw [if_neg hs]

theorem streamGenerator_midfail (synthQ fbQ nsQ : QueryResult)
    (mods : Option (List String)) (sid fmt : String)
    (lines : List RawLine) (midFail : Bool)
    (hab : ((runLines (wantTextOutput (normModalities mods))
        (wantAudioOutput (normModalities mods)) sid ⟨[], []⟩ lines).2.2 || midFail) = true) :
    streamGenerator ⟨.connOk 200 lines midFail, synthQ, fbQ, nsQ⟩ mods sid fmt =
      ⟨(runLines (wantTextOutput (normModalities mods))
          (wantAudioOutput (normModalities mods)) sid ⟨[], []⟩ lines).2.1 ++
        (fallbackRun (wantTextOutput (normModalities mods))
          (wantAudioOutput (normModalities mods)) sid fmt fbQ).1,
       (fallbackRun (wantTextOutput (normModalities mods))
          (wantAudioOutput (normModalities mods)) sid fmt fbQ).2, true,
       (runLines (wantTextOutput (normModalities mods))
          (wantAudioOutput (normModalities mods)) sid ⟨[], []⟩ lines).1.buffer⟩ := by
  simp only [streamGenerator]
  rw [if_true, hab]
  simp

theorem streamGenerator_success (synthQ fbQ nsQ : QueryResult)
    (mods : Option (List String)) (sid fmt : String)
    (lines : List RawLine) (tailFr : List Frame)
    (hab : ((runLines (wantTextOutput (normModalities mods))
        (wantAudioOutput (normModalities mods)) sid ⟨[], []⟩ lines).2.2 || false) = false)
    (htail : successTail (wantAudioOutput (normModalities mods)) sid fmt
        (runLines (wantTextOutput (normModalities mods))
          (wantAudioOutput (normModalities mods)) sid ⟨[], []⟩ lines).1.aggregated synthQ =
        .ok tailFr) :
    streamGenerator ⟨.connOk 200 lines false, synthQ, fbQ, nsQ⟩ mods sid fmt =
      ⟨(runLines (wantTextOutput (normModalities mods))
          (wantAudioOutput (normModalities mods)) sid ⟨[], []⟩ lines).2.1 ++
        tailFr ++ [.done], false, false,
       (runLines (wantTextOutput (normModalities mods))
          (wantAudioOutput (normModalities mods)) sid ⟨[], []⟩ lines).1.buffer⟩ := by
  simp only [streamGenerator]
  rw [if_true, hab]
  simp only [Bool.false_eq_true, if_false, htail]

theorem streamGenerator_tailerr (synthQ fbQ nsQ : QueryResult)
    (mods : Option (List String)) (sid fmt : String)
    (lines : List RawLine)
    (hab : ((runLines (wantTextOutput (normModalities mods))
        (wantAudioOutput (normModalities mods)) sid ⟨[], []⟩ lines).2.2 || false) = false)
    (htail : successTail (wantAudioOutput (normModalities mods)) sid fmt
        (runLines (wantTextOutput (normModalities mods))
          (wantAudioOutput (normModalities mods)) sid ⟨[], []⟩ lines).1.aggregated synthQ =
        .error ()) :
    streamGenerator ⟨.connOk 200 lines false, synthQ, fbQ, nsQ⟩ mods sid fmt =
      ⟨(runLines (wantTextOutput (normModalities mods))
          (wantAudioOutput (normModalities mods)) sid ⟨[], []⟩ lines).2.1 ++
        (fallbackRun (wantTextOutput (normModalities mods))
          (wantAudioOutput (normModalities mods)) sid fmt fbQ).1,
       (fallbackRun (wantTextOutput (normModalities mods))
          (wantAudioOutput (normModalities mods)) sid fmt fbQ).2, true,
       (runLines (wantTextOutput (normModalities mods))
          (wantAudioOutput (normModalities mods)) sid ⟨[], []⟩ lines).1.buffer⟩ := by
  simp only [streamGenerator]
  rw [if_true, hab]
  simp only [Bool.false_eq_true, if_false, htail]


theorem pySplitGo_ne_nil {cur : List Char} (h : cur ≠ []) :
    ∀ l, pySplitGo cur l ≠ [] := by
  intro l
  revert h
  induction l generalizing cur with
  | nil =>
    intro h
    simp only [pySplitGo]
    rw [if_neg (by simpa [List.isEmpty_iff] using h)]
    simp
  | cons c cs ih =>
    intro h
    simp only [pySplitGo]
    by_cases hc : isPySpace c
    · rw [if_pos hc, if_neg (by simpa [List.isEmpty_iff] using h)]
      simp
    · rw [if_neg hc]
      exact ih (by simp)

theorem textChunkFrames_ne_nil {sid s : String} (h : pySplitL s.data ≠ []) :
    textChunkFrames sid s ≠ [] := by
  unfold textChunkFrames chunk_text_by_words chunksOf
  intro hc
  simp only [List.map_eq_nil_iff] at hc
  exact chunkGo_ne_nil (Or.inl h) hc

theorem jdump_obj_words_ne_nil (fs : List (String × J)) :
    pySplitL (jdump (.obj fs)).data ≠ [] := by
  have hd : (jdump (.obj fs)).data = '\x7b' :: (jdumpFields fs ++ "\x7d").data := by
    rw [show jdump (.obj fs) = "\x7b" ++ (jdumpFields fs ++ "\x7d") from by
      simp [jdump, String.append_assoc]]
    rfl
  rw [hd]
  unfold pySplitL
  simp only [pySplitGo]
  rw [if_neg (by decide)]
  exact pySplitGo_ne_nil (by simp) _

theorem chunkStr_suppression (wt wa : Bool) (sid piece : String) (st st2 : LoopState)
    (fr : List Frame)
    (h : processLine wt wa sid st (.jsonObj [("object", .str "chat.completion.chunk"),
      ("choices", .arr [.obj [("delta", .obj [("content", .str piece)])]])]) = .ok (st2, fr))
    (hne : fr ≠ []) : wt = true ∧ wa = false := by
  replace h : (match (resegStep st.buffer piece).2 with
      | some combined =>
        Except.ok ((⟨(resegStep st.buffer piece).1, st.aggregated ++ [piece]⟩ : LoopState),
          if wt && !wa then
            [Frame.ev (mutateParsed [("object", .str "chat.completion.chunk"),
              ("choices", .arr [.obj [("delta", .obj [("content", .str piece)])]])] sid combined)]
          else [])
      | none =>
        Except.ok ((⟨(resegStep st.buffer piece).1, st.aggregated ++ [piece]⟩ : LoopState),
          ([] : List Frame))) = Except.ok (st2, fr) := h
  cases hr : (resegStep st.buffer piece).2 with
  | none =>
    rw [hr] at h
    replace h : Except.ok ((⟨(resegStep st.buffer piece).1,
        st.aggregated ++ [piece]⟩ : LoopState), ([] : List Frame)) =
        Except.ok (st2, fr) := h
    simp only [Except.ok.injEq, Prod.mk.injEq] at h
    exact absurd h.2.symm hne
  | some combined =>
    rw [hr] at h
    replace h : Except.ok ((⟨(resegStep st.buffer piece).1,
        st.aggregated ++ [piece]⟩ : LoopState),
        if wt && !wa then
          [Frame.ev (mutateParsed [("object", .str "chat.completion.chunk"),
            ("choices", .arr [.obj [("delta", .obj [("content", .str piece)])]])] sid combined)]
        else []) = Except.ok (st2, fr) := h
    simp only [Except.ok.injEq, Prod.mk.injEq] at h
    by_cases hcond : (wt && !wa) = true
    · have hcc : wt = true ∧ wa = false := by simpa using hcond
      exact hcc
    · rw [if_neg hcond] at h
      exact absurd h.2.symm hne

theorem objDelta_emits (wa : Bool) (sid s : String) (st : LoopState) (hs : s ≠ "") :
    processLine true wa sid st (.jsonObj [("object", .str "chat.completion.chunk"),
      ("choices", .arr [.obj [("delta", .obj [("content",
        .obj [("response", .str s)])])]])]) =
      .ok ({ st with aggregated := st.aggregated ++ [s] }, textChunkFrames sid s) := by
  have htr : truthy (J.str s) = true := by simp [truthy, hs]
  have heq : processLine true wa sid st (.jsonObj [("object", .str "chat.completion.chunk"),
      ("choices", .arr [.obj [("delta", .obj [("content",
        .obj [("response", .str s)])])]])]) =
      (match (if truthy (J.str s) = true then some (J.str s) else none) with
       | some t => Except.ok ({ st with aggregated := st.aggregated ++ [pyStr t] },
           textChunkFrames sid (pyStr t))
       | none => Except.ok (topLevelHandling true sid st
           [("object", .str "chat.completion.chunk"),
            ("choices", .arr [.obj [("delta", .obj [("content",
              .obj [("response", .str s)])])]])])) := rfl
  rw [heq]
  simp only [htr, if_pos rfl]
  rfl

theorem topLevel_emits (wa : Bool) (sid s : String) (st : LoopState) (hs : s ≠ "") :
    processLine true wa sid st (.jsonObj [("response", .str s)]) =
      .ok ({ st with aggregated := st.aggregated ++ [s] }, textChunkFrames sid s) := by
  have htr : truthy (J.str s) = true := by simp [truthy, hs]
  have heq : processLine true wa sid st (.jsonObj [("response", .str s)]) =
      Except.ok (topLevelHandling true sid st [("response", J.str s)]) := rfl
  rw [heq]
  unfold topLevelHandling
  have heq2 : firstTruthy [jGet [("response", J.str s)] "response",
      jGet [("response", J.str s)] "answer", jGet [("response", J.str s)] "result"] =
      some (J.str s) := by
    simp [firstTruthy, jGet, htr]
  rw [heq2]
  rfl

theorem stringify_emits (wa : Bool) (sid : String) (st : LoopState) (fs : List (String × J))
    (hco : isChunkObject fs = false)
    (hft : firstTruthy [jGet fs "response", jGet fs "answer", jGet fs "result"] = none) :
    processLine true wa sid st (.jsonObj fs) =
      .ok ({ st with aggregated := st.aggregated ++ [jdump (.obj fs)] },
           textChunkFrames sid (jdump (.obj fs))) := by
  simp only [processLine, hco, Bool.false_eq_true, if_false]
  unfold topLevelHandling
  rw [hft]
  rfl

theorem rawLine_emits (wa : Bool) (sid s : String) (st : LoopState) :
    processLine true wa sid st (.textLine s) =
      .ok ({ st with aggregated := st.aggregated ++ [s] }, textChunkFrames sid s) := rfl

/-
Claim theorems.
-/

theorem findUserIn_none {l : List ChatMessage} (h : ∀ m ∈ l, pyLower m.role ≠ "user") :
    findUserIn l = none := by
  induction l with
  | nil => rfl
  | cons m rest ih =>
    simp only [findUserIn]
    rw [if_neg (h m (List.mem_cons_self _ _))]
    exact ih (fun m2 hm => h m2 (List.mem_cons_of_mem _ hm))

theorem findUserIn_append_none {a l : List ChatMessage}
    (h : ∀ m ∈ a, pyLower m.role ≠ "user") :
    findUserIn (a ++ l) = findUserIn l := by
  induction a with
  | nil => rfl
  | cons m rest ih =>
    simp only [List.cons_append, findUserIn]
    rw [if_neg (h m (List.mem_cons_self _ _))]
    exact ih (fun m2 hm => h m2 (List.mem_cons_of_mem _ hm))

set_option maxRecDepth 1000000

/-- C1 (code bug): the claim says every streaming session, on every path,
yields exactly one literal `data: [DONE]` frame, as its last frame.  The
code breaks this on a reachable input: when the streaming connection fails
and the fallback query returns HTTP 200 with a truthy non-string answer
field (body `{"response": 5}`), `full_text` is the integer 5 and
`chunk_text_by_words(full_text)` (text wanted) raises an uncaught
AttributeError outside every try block, so the generator aborts having
yielded nothing: the session's frame sequence is empty and contains zero
DONE frames. -/
theorem c1_no_done_on_nonstring_answer :
    streamGenerator ⟨.connFail, .qfail "x", .qok 200 [("response", .num 5)] "", .qfail "x"⟩
        (some ["text"]) "sid" "pcm16" = ⟨[], true, true, []⟩ ∧
    countDone (streamGenerator ⟨.connFail, .qfail "x", .qok 200 [("response", .num 5)] "",
        .qfail "x"⟩ (some ["text"]) "sid" "pcm16").frames = 0 := ⟨rfl, rfl⟩

/-- C2 (code bug): the claim says the concatenation of emitted segments,
including a final end-of-stream flush of any remainder in text-only mode,
equals the concatenation of appended fragments.  The code never flushes at
end of stream: a text-only session receiving the single fragment "hello"
(no terminal punctuation, below the 12-word threshold) emits no text chunk
at all — only the DONE frame — and leaves "hello" stranded in the
re-segmenter buffer, so the appended text is lost. -/
theorem c2_trailing_text_lost :
    streamGenerator ⟨.connOk 200 [.jsonObj [("object", .str "chat.completion.chunk"),
          ("choices", .arr [.obj [("delta", .obj [("content", .str "hello")])]])]] false,
        .qfail "x", .qfail "x", .qfail "x"⟩ (some ["text"]) "sid" "pcm16" =
      ⟨[.done], false, false, ["hello"]⟩ := rfl

/-- C3 (counterexample): the claim says a mid-flight transport failure
causes no second non-streaming query and never a second full answer.  In
the code the `except` at line 367 catches the mid-flight exception and
falls through to the fallback: here a session streams one text chunk
("Hello world."), the transport then fails, and the orchestrator issues
the fallback query and emits the fallback's full answer as a second
content chunk — two TextChunks and a consulted fallback query. -/
theorem c3_midflight_fallback_counterexample :
    (streamGenerator ⟨.connOk 200 [.jsonObj [("object", .str "chat.completion.chunk"),
          ("choices", .arr [.obj [("delta", .obj [("content", .str "Hello world.")])]])]] true,
        .qfail "x", .qok 200 [("response", .str "full answer")] "", .qfail "x"⟩
      (some ["text"]) "sid" "pcm16").usedFallback = true ∧
    countTextChunks (streamGenerator ⟨.connOk 200 [.jsonObj
          [("object", .str "chat.completion.chunk"),
           ("choices", .arr [.obj [("delta", .obj [("content", .str "Hello world.")])]])]] true,
        .qfail "x", .qok 200 [("response", .str "full answer")] "", .qfail "x"⟩
      (some ["text"]) "sid" "pcm16").frames = 2 := ⟨rfl, rfl⟩

/-- C3 (amended): when the upstream stream returns 200 and the transport
fails mid-flight after delivering its lines, the generator does fall back:
it issues the fallback non-streaming query and the session's frames are the
proxied frames followed by the fallback's frames (so a second full answer
can follow partial streamed output). -/
theorem c3_midflight_fallback_amended (env : Env) (mods : Option (List String))
    (sid fmt : String) (lines : List RawLine)
    (h : env.conn = ConnResult.connOk 200 lines true) :
    (streamGenerator env mods sid fmt).usedFallback = true ∧
    (streamGenerator env mods sid fmt).frames =
      (runLines (wantTextOutput (normModalities mods)) (wantAudioOutput (normModalities mods))
        sid ⟨[], []⟩ lines).2.1 ++
      (fallbackRun (wantTextOutput (normModalities mods)) (wantAudioOutput (normModalities mods))
        sid fmt env.fbQuery).1 := by
  obtain ⟨conn, synthQ, fbQ, nsQ⟩ := env
  simp only at h
  subst h
  rw [streamGenerator_midfail synthQ fbQ nsQ mods sid fmt lines true (by simp)]
  exact ⟨rfl, rfl⟩

/-- Witness for the amended C3, at a concrete environment. -/
theorem c3_midflight_fallback_amended_witness :
    (streamGenerator ⟨.connOk 200 [] true, .qfail "a", .qfail "b", .qfail "c"⟩
      none "s" "f").usedFallback = true ∧
    (streamGenerator ⟨.connOk 200 [] true, .qfail "a", .qfail "b", .qfail "c"⟩
      none "s" "f").frames =
      (runLines (wantTextOutput (normModalities none)) (wantAudioOutput (normModalities none))
        "s" ⟨[], []⟩ []).2.1 ++
      (fallbackRun (wantTextOutput (normModalities none)) (wantAudioOutput (normModalities none))
        "s" "f" (QueryResult.qfail "b")).1 :=
  c3_midflight_fallback_amended ⟨.connOk 200 [] true, .qfail "a", .qfail "b", .qfail "c"⟩
    none "s" "f" [] rfl

/-- C4 (counterexample): the claim says that when both "text" and "audio"
are requested, inline text emission is suppressed on every text-producing
path.  Only the string-delta path checks `not want_audio_output` (line
280); the object-delta-content path (line 294) checks `want_text_output`
alone, so a session with modalities ["text","audio"] that receives a chunk
whose delta content is the object `{"response": "hi"}` gets a TextChunk
emitted inline — the claim requires zero. -/
theorem c4_suppression_counterexample :
    countTextChunks (streamGenerator ⟨.connOk 200 [.jsonObj
          [("object", .str "chat.completion.chunk"),
           ("choices", .arr [.obj [("delta", .obj [("content",
             .obj [("response", .str "hi")])])]])]] false,
        .qfail "x", .qfail "x", .qfail "x"⟩
      (some ["text", "audio"]) "sid" "pcm16").frames = 1 := rfl

/-- C4 (amended): inline-text suppression when audio is also requested
holds only on the buffered string-delta path; every other text-producing
path (object delta content, top-level answer object, stringified fallback,
raw non-JSON line) emits its chunks whenever text output is wanted,
regardless of audio.  Canonical line shapes witness each path. -/
theorem c4_suppression_amended :
    (∀ (wt wa : Bool) (sid piece : String) (st st2 : LoopState) (fr : List Frame),
      processLine wt wa sid st (.jsonObj [("object", .str "chat.completion.chunk"),
        ("choices", .arr [.obj [("delta", .obj [("content", .str piece)])]])]) =
        .ok (st2, fr) →
      fr ≠ [] → wt = true ∧ wa = false) ∧
    (∀ (wa : Bool) (sid s : String) (st : LoopState), pySplitL s.data ≠ [] →
      processLine true wa sid st (.jsonObj [("object", .str "chat.completion.chunk"),
        ("choices", .arr [.obj [("delta", .obj [("content",
          .obj [("response", .str s)])])]])]) =
        .ok ({ st with aggregated := st.aggregated ++ [s] }, textChunkFrames sid s) ∧
      textChunkFrames sid s ≠ []) ∧
    (∀ (wa : Bool) (sid s : String) (st : LoopState), pySplitL s.data ≠ [] →
      processLine true wa sid st (.jsonObj [("response", .str s)]) =
        .ok ({ st with aggregated := st.aggregated ++ [s] }, textChunkFrames sid s) ∧
      textChunkFrames sid s ≠ []) ∧
    (∀ (wa : Bool) (sid : String) (st : LoopState) (fs : List (String × J)),
      isChunkObject fs = false →
      firstTruthy [jGet fs "response", jGet fs "answer", jGet fs "result"] = none →
      processLine true wa sid st (.jsonObj fs) =
        .ok ({ st with aggregated := st.aggregated ++ [jdump (.obj fs)] },
             textChunkFrames sid (jdump (.obj fs))) ∧
      textChunkFrames sid (jdump (.obj fs)) ≠ []) ∧
    (∀ (wa : Bool) (sid s : String) (st : LoopState), pySplitL s.data ≠ [] →
      processLine true wa sid st (.textLine s) =
        .ok ({ st with aggregated := st.aggregated ++ [s] }, textChunkFrames sid s) ∧
      textChunkFrames sid s ≠ []) := by
  have hsne : ∀ s : String, pySplitL s.data ≠ [] → s ≠ "" := by
    intro s hw he
    subst he
    exact hw rfl
  refine ⟨chunkStr_suppression, ?_, ?_, ?_, ?_⟩
  · intro wa sid s st hw
    exact ⟨objDelta_emits wa sid s st (hsne s hw), textChunkFrames_ne_nil hw⟩
  · intro wa sid s st hw
    exact ⟨topLevel_emits wa sid s st (hsne s hw), textChunkFrames_ne_nil hw⟩
  · intro wa sid st fs hco hft
    exact ⟨stringify_emits wa sid st fs hco hft,
      textChunkFrames_ne_nil (jdump_obj_words_ne_nil fs)⟩
  · intro wa sid s st hw
    exact ⟨rawLine_emits wa sid s st, textChunkFrames_ne_nil hw⟩

/-- Witness for the amended C4: the object-delta-content path emits a
TextChunk with both text and audio requested. -/
theorem c4_suppression_amended_witness :
    processLine true true "sid" ⟨[], []⟩ (.jsonObj [("object", .str "chat.completion.chunk"),
      ("choices", .arr [.obj [("delta", .obj [("content",
        .obj [("response", .str "hi")])])]])]) =
      .ok (⟨[], ["hi"]⟩, textChunkFrames "sid" "hi") ∧
    textChunkFrames "sid" "hi" ≠ [] :=
  c4_suppression_amended.2.1 true "sid" "hi" ⟨[], []⟩ (by decide)

/-- C5 (counterexample): the claim says an audio-only session never emits a
frame whose delta carries a text content field, on any path including the
fallback and error paths.  The fallback error paths emit their error text
chunk unconditionally: an audio-only session whose streaming attempt and
fallback query both fail receives a delta-content error frame. -/
theorem c5_audio_only_counterexample :
    (streamGenerator ⟨.connFail, .qfail "x", .qfail "boom", .qfail "x"⟩
        (some ["audio"]) "sid" "pcm16").frames =
      [.ev (contentChunk "sid" "LightRAG request failed: boom"), .done] ∧
    countTextChunks (streamGenerator ⟨.connFail, .qfail "x", .qfail "boom", .qfail "x"⟩
        (some ["audio"]) "sid" "pcm16").frames = 1 := ⟨rfl, rfl⟩

/-- C5 (amended): for a session requesting exactly ["audio"], provided the
fallback query body is contract-shaped (its truthy answer field, if any, is
a string — otherwise the generator crashes, see C1): the generator does not
crash, the output ends with exactly one Terminal frame, at most one
TextChunk is ever emitted (the fallback error chunk; none at all when the
fallback query succeeds with 200 or is never needed), and at least one
AudioChunk is emitted whenever synthesis runs on nonempty text — both on
the fallback path of ANY session that falls back (upstream connect failure,
non-200 streaming status, mid-flight failure or abort, or synthesis error)
whose fallback query returns 200 with a string answer cleaning to nonempty
bytes, and on the successful-proxy path whenever the post-stream synthesis
block receives nonempty text (from the 200 re-query's string answer or from
the aggregated proxy parts). -/
theorem c5_audio_only_amended (env : Env) (sid fmt : String)
    (hq : goodAnswerB env.fbQuery = true) :
    (streamGenerator env (some ["audio"]) sid fmt).crashed = false ∧
    (∃ pre, (streamGenerator env (some ["audio"]) sid fmt).frames = pre ++ [Frame.done] ∧
      countDone pre = 0) ∧
    countTextChunks (streamGenerator env (some ["audio"]) sid fmt).frames ≤ 1 ∧
    (∀ status body rt, env.fbQuery = QueryResult.qok status body rt → status = 200 →
      countTextChunks (streamGenerator env (some ["audio"]) sid fmt).frames = 0) ∧
    (∀ body rt, (streamGenerator env (some ["audio"]) sid fmt).usedFallback = true →
      env.fbQuery = QueryResult.qok 200 body rt →
      strBytes (clean_text_for_tts (extractAnswer body)) ≠ [] →
      ∃ f ∈ (streamGenerator env (some ["audio"]) sid fmt).frames,
        isAudioChunkFrame f = true) ∧
    (∀ lines t, env.conn = ConnResult.connOk 200 lines false →
      (runLines false true sid ⟨[], []⟩ lines).2.2 = false →
      synthText (runLines false true sid ⟨[], []⟩ lines).1.aggregated env.synthQuery =
        some t →
      strBytes (clean_text_for_tts t) ≠ [] →
      ∃ f ∈ (streamGenerator env (some ["audio"]) sid fmt).frames,
        isAudioChunkFrame f = true) := by
  obtain ⟨conn, synthQ, fbQ, nsQ⟩ := env
  have hwt : wantTextOutput (normModalities (some ["audio"])) = false := rfl
  have hwa : wantAudioOutput (normModalities (some ["audio"])) = true := rfl
  simp only at hq
  have hlineDone : ∀ (lines : List RawLine),
      countDone (runLines false true sid ⟨[], []⟩ lines).2.1 = 0 :=
    fun lines => countP_zero_of (fun f hf => (runLines_frames_audio lines ⟨[], []⟩ f hf).1)
  have hlineText : ∀ (lines : List RawLine),
      countTextChunks (runLines false true sid ⟨[], []⟩ lines).2.1 = 0 :=
    fun lines => countP_zero_of (fun f hf => (runLines_frames_audio lines ⟨[], []⟩ f hf).2)
  cases conn with
  | connFail =>
    rw [streamGenerator_connFail, hwt, hwa]
    rcases @fallbackRun_audio_only sid fmt _ hq with ⟨hcr, hdone, hle, h200⟩
    refine ⟨hcr, hdone, hle, ?_, ?_, ?_⟩
    · intro status body rt h1 h2
      exact (h200 status body rt h1 h2).1
    · intro body rt _ h1 h2
      exact (h200 200 body rt h1 rfl).2 h2
    · intro lines2 t h1
      simp at h1
  | connOk status lines midFail =>
    by_cases hs : status = 200
    · subst hs
      by_cases hab : ((runLines false true sid ⟨[], []⟩ lines).2.2 || midFail) = true
      · have hab2 : ((runLines (wantTextOutput (normModalities (some ["audio"])))
            (wantAudioOutput (normModalities (some ["audio"]))) sid
            ⟨[], []⟩ lines).2.2 || midFail) = true := hab
        rw [streamGenerator_midfail synthQ fbQ nsQ (some ["audio"]) sid fmt lines midFail hab2,
          hwt, hwa]
        rcases @fallbackRun_audio_only sid fmt _ hq with ⟨hcr, hdone, hle, h200⟩
        rcases hdone with ⟨pre0, hpre0, hpre0d⟩
        refine ⟨hcr, ⟨(runLines false true sid ⟨[], []⟩ lines).2.1 ++ pre0, ?_, ?_⟩,
          ?_, ?_, ?_, ?_⟩
        · rw [hpre0, List.append_assoc]
        · unfold countDone
          rw [List.countP_append]
          rw [show List.countP isDone (runLines false true sid ⟨[], []⟩ lines).2.1 =
            countDone (runLines false true sid ⟨[], []⟩ lines).2.1 from rfl, hlineDone]
          rw [show List.countP isDone pre0 = countDone pre0 from rfl, hpre0d]
        · unfold countTextChunks
          rw [List.countP_append]
          rw [show List.countP isTextChunkFrame (runLines false true sid ⟨[], []⟩ lines).2.1 =
            countTextChunks (runLines false true sid ⟨[], []⟩ lines).2.1 from rfl, hlineText]
          rw [Nat.zero_add]
          exact hle
        · intro status2 body rt h1 h2
          unfold countTextChunks
          rw [List.countP_append]
          rw [show List.countP isTextChunkFrame (runLines false true sid ⟨[], []⟩ lines).2.1 =
            countTextChunks (runLines false true sid ⟨[], []⟩ lines).2.1 from rfl, hlineText]
          rw [Nat.zero_add]
          exact (h200 status2 body rt h1 h2).1
        · intro body rt _ h1 h2
          rcases (h200 200 body rt h1 rfl).2 h2 with ⟨f, hfm, hfa⟩
          exact ⟨f, List.mem_append.mpr (Or.inr hfm), hfa⟩
        · intro lines2 t h1 h2 h3 h4
          injection h1 with he1 hl hm
          subst hl
          subst hm
          rw [Bool.or_false] at hab
          rw [h2] at hab
          exact Bool.noConfusion hab
      · have hab3 : (runLines false true sid ⟨[], []⟩ lines).2.2 = false ∧ midFail = false := by
          constructor
          · cases hx : (runLines false true sid ⟨[], []⟩ lines).2.2
            · rfl
            · exact absurd (by simp [hx]) hab
          · cases hmf : midFail
            · rfl
            · exact absurd (by simp [hmf]) hab
        rcases hab3 with ⟨hab4, hmf⟩
        subst hmf
        have hab5 : ((runLines (wantTextOutput (normModalities (some ["audio"])))
            (wantAudioOutput (normModalities (some ["audio"]))) sid
            ⟨[], []⟩ lines).2.2 || false) = false := by
          rw [Bool.or_false]
          exact hab4
        cases htail : successTail true sid fmt
            (runLines false true sid ⟨[], []⟩ lines).1.aggregated synthQ with
        | ok tailFr =>
          have htail2 : successTail (wantAudioOutput (normModalities (some ["audio"]))) sid fmt
              (runLines (wantTextOutput (normModalities (some ["audio"])))
                (wantAudioOutput (normModalities (some ["audio"]))) sid
                ⟨[], []⟩ lines).1.aggregated synthQ = .ok tailFr := htail
          rw [streamGenerator_success synthQ fbQ nsQ (some ["audio"]) sid fmt lines tailFr hab5
            htail2, hwt, hwa]
          have htailDone : countDone tailFr = 0 :=
            countP_zero_of (fun f hf => (successTail_frames htail f hf).1)
          have htailText : countTextChunks tailFr = 0 :=
            countP_zero_of (fun f hf => (successTail_frames htail f hf).2)
          have hframesText : countTextChunks
              ((runLines false true sid ⟨[], []⟩ lines).2.1 ++ tailFr ++ [Frame.done]) = 0 := by
            unfold countTextChunks
            rw [List.countP_append, List.countP_append]
            rw [show List.countP isTextChunkFrame (runLines false true sid ⟨[], []⟩ lines).2.1 =
              countTextChunks (runLines false true sid ⟨[], []⟩ lines).2.1 from rfl, hlineText]
            rw [show List.countP isTextChunkFrame tailFr = countTextChunks tailFr from rfl,
              htailText]
            rfl
          refine ⟨rfl, ⟨(runLines false true sid ⟨[], []⟩ lines).2.1 ++ tailFr, ?_, ?_⟩,
            ?_, ?_, ?_, ?_⟩
          · rw [List.append_assoc]
          · unfold countDone
            rw [List.countP_append]
            rw [show List.countP isDone (runLines false true sid ⟨[], []⟩ lines).2.1 =
              countDone (runLines false true sid ⟨[], []⟩ lines).2.1 from rfl, hlineDone]
            rw [show List.countP isDone tailFr = countDone tailFr from rfl, htailDone]
          · rw [hframesText]
            exact Nat.zero_le 1
          · intro status2 body rt h1 h2
            exact hframesText
          · intro body rt huf h1 h2
            exact Bool.noConfusion huf
          · intro lines2 t h1 h2 h3 h4
            injection h1 with he1 hl hm
            subst hl
            have hok := @successTail_synth sid fmt _ _ _ h3
            rw [htail] at hok
            simp only [Except.ok.injEq] at hok
            subst hok
            rcases @audioFrames_has_audio sid fmt _ h4 with ⟨f, hfm, hfa⟩
            exact ⟨f, List.mem_append.mpr (Or.inl (List.mem_append.mpr (Or.inr hfm))), hfa⟩
        | error e =>
          cases e
          have htail2 : successTail (wantAudioOutput (normModalities (some ["audio"]))) sid fmt
              (runLines (wantTextOutput (normModalities (some ["audio"])))
                (wantAudioOutput (normModalities (some ["audio"]))) sid
                ⟨[], []⟩ lines).1.aggregated synthQ = .error () := htail
          rw [streamGenerator_tailerr synthQ fbQ nsQ (some ["audio"]) sid fmt lines hab5 htail2,
            hwt, hwa]
          rcases @fallbackRun_audio_only sid fmt _ hq with ⟨hcr, hdone, hle, h200⟩
          rcases hdone with ⟨pre0, hpre0, hpre0d⟩
          refine ⟨hcr, ⟨(runLines false true sid ⟨[], []⟩ lines).2.1 ++ pre0, ?_, ?_⟩,
            ?_, ?_, ?_, ?_⟩
          · rw [hpre0, List.append_assoc]
          · unfold countDone
            rw [List.countP_append]
            rw [show List.countP isDone (runLines false true sid ⟨[], []⟩ lines).2.1 =
              countDone (runLines false true sid ⟨[], []⟩ lines).2.1 from rfl, hlineDone]
            rw [show List.countP isDone pre0 = countDone pre0 from rfl, hpre0d]
          · unfold countTextChunks
            rw [List.countP_append]
            rw [show List.countP isTextChunkFrame (runLines false true sid ⟨[], []⟩ lines).2.1 =
              countTextChunks (runLines false true sid ⟨[], []⟩ lines).2.1 from rfl, hlineText]
            rw [Nat.zero_add]
            exact hle
          · intro status2 body rt h1 h2
            unfold countTextChunks
            rw [List.countP_append]
            rw [show List.countP isTextChunkFrame (runLines false true sid ⟨[], []⟩ lines).2.1 =
              countTextChunks (runLines false true sid ⟨[], []⟩ lines).2.1 from rfl, hlineText]
            rw [Nat.zero_add]
            exact (h200 status2 body rt h1 h2).1
          · intro body rt _ h1 h2
            rcases (h200 200 body rt h1 rfl).2 h2 with ⟨f, hfm, hfa⟩
            exact ⟨f, List.mem_append.mpr (Or.inr hfm), hfa⟩
          · intro lines2 t h1 h2 h3 h4
            injection h1 with he1 hl hm
            subst hl
            have hok := @successTail_synth sid fmt _ _ _ h3
            rw [htail] at hok
            exact Except.noConfusion hok
    · rw [streamGenerator_non200 synthQ fbQ nsQ (some ["audio"]) sid fmt status lines midFail hs,
        hwt, hwa]
      rcases @fallbackRun_audio_only sid fmt _ hq with ⟨hcr, hdone, hle, h200⟩
      refine ⟨hcr, hdone, hle, ?_, ?_, ?_⟩
      · intro status2 body rt h1 h2
        exact (h200 status2 body rt h1 h2).1
      · intro body rt _ h1 h2
        exact (h200 200 body rt h1 rfl).2 h2
      · intro lines2 t h1
        injection h1 with he1 hl hm
        exact absurd he1 hs

/-- Witness for the amended C5, at a concrete environment whose fallback
returns 200 with answer "Hello." (nonempty synthesized audio). -/
theorem c5_audio_only_amended_witness :
    (streamGenerator ⟨.connFail, .qfail "q", .qok 200 [("response", .str "Hello.")] "",
        .qfail "q"⟩ (some ["audio"]) "s" "f").crashed = false ∧
    (∃ pre, (streamGenerator ⟨.connFail, .qfail "q", .qok 200 [("response", .str "Hello.")] "",
        .qfail "q"⟩ (some ["audio"]) "s" "f").frames = pre ++ [Frame.done] ∧
      countDone pre = 0) ∧
    countTextChunks (streamGenerator ⟨.connFail, .qfail "q",
        .qok 200 [("response", .str "Hello.")] "", .qfail "q"⟩
      (some ["audio"]) "s" "f").frames ≤ 1 ∧
    (∀ status body rt, (⟨.connFail, .qfail "q", .qok 200 [("response", .str "Hello.")] "",
        .qfail "q"⟩ : Env).fbQuery = QueryResult.qok status body rt → status = 200 →
      countTextChunks (streamGenerator ⟨.connFail, .qfail "q",
          .qok 200 [("response", .str "Hello.")] "", .qfail "q"⟩
        (some ["audio"]) "s" "f").frames = 0) ∧
    (∀ body rt, (streamGenerator ⟨.connFail, .qfail "q",
          .qok 200 [("response", .str "Hello.")] "", .qfail "q"⟩
        (some ["audio"]) "s" "f").usedFallback = true →
      (⟨.connFail, .qfail "q", .qok 200 [("response", .str "Hello.")] "",
        .qfail "q"⟩ : Env).fbQuery = QueryResult.qok 200 body rt →
      strBytes (clean_text_for_tts (extractAnswer body)) ≠ [] →
      ∃ f ∈ (streamGenerator ⟨.connFail, .qfail "q",
          .qok 200 [("response", .str "Hello.")] "", .qfail "q"⟩
        (some ["audio"]) "s" "f").frames, isAudioChunkFrame f = true) ∧
    (∀ lines t, (⟨.connFail, .qfail "q", .qok 200 [("response", .str "Hello.")] "",
        .qfail "q"⟩ : Env).conn = ConnResult.connOk 200 lines false →
      (runLines false true "s" ⟨[], []⟩ lines).2.2 = false →
      synthText (runLines false true "s" ⟨[], []⟩ lines).1.aggregated
        (⟨.connFail, .qfail "q", .qok 200 [("response", .str "Hello.")] "",
          .qfail "q"⟩ : Env).synthQuery = some t →
      strBytes (clean_text_for_tts t) ≠ [] →
      ∃ f ∈ (streamGenerator ⟨.connFail, .qfail "q",
          .qok 200 [("response", .str "Hello.")] "", .qfail "q"⟩
        (some ["audio"]) "s" "f").frames, isAudioChunkFrame f = true) :=
  c5_audio_only_amended ⟨.connFail, .qfail "q", .qok 200 [("response", .str "Hello.")] "",
    .qfail "q"⟩ "s" "f" rfl

/-- C6 (confirmed): a non-blank upstream line that fails JSON parsing
(`RawLine.textLine`) is handled by appending the raw line verbatim to the
aggregated text and, when text output is wanted, emitting its six-word
chunks; nothing is dropped — the words of the emitted chunks are exactly
the words of the raw line. -/
theorem c6_unparsed_line_preserved :
    ∀ (wt wa : Bool) (sid : String) (st : LoopState) (s : String),
      processLine wt wa sid st (.textLine s) =
        .ok ({ st with aggregated := st.aggregated ++ [s] },
             if wt then textChunkFrames sid s else []) ∧
      ((chunk_text_by_words s).map (fun p => pySplitL p.data)).flatten = pySplitL s.data := by
  intro wt wa sid st s
  exact ⟨rfl, chunk_words_pres s⟩

/-- C8 (confirmed): the re-segmenter flush fires exactly when the appended
fragment contains '.', '!' or '?', or the cumulative buffered word count
(sum over the buffer after the append) reaches 12; and feeding thirteen
one-word fragments with no punctuation flushes exactly one twelve-word
segment, leaving one word buffered. -/
theorem c8_flush_condition :
    (∀ (buf : List String) (piece : String),
      ((resegStep buf piece).2.isSome = true) ↔
        (hasPunct piece = true ∨
         12 ≤ ((buf ++ [piece]).map (fun f => (pySplitL f.data).length)).sum)) ∧
    resegRun (List.replicate 13 "word") =
      (["word"], ["word word word word word word word word word word word word"]) := by
  constructor
  · intro buf piece
    unfold resegStep
    by_cases hC : (hasPunct piece || decide (12 ≤ bufferWordCount (buf ++ [piece]))) = true
    · rw [if_pos hC]
      simp only [Option.isSome_some, true_iff]
      rcases Bool.or_eq_true _ _ |>.mp hC with h | h
      · exact Or.inl h
      · rw [← bufferWordCount_sum]
        exact Or.inr (of_decide_eq_true h)
    · rw [if_neg hC]
      simp only [Option.isSome_none, Bool.false_eq_true, false_iff]
      intro hcontra
      apply hC
      rcases hcontra with h | h
      · simp [h]
      · rw [← bufferWordCount_sum] at h
        simp [h]
  · rfl

/-- C9 (confirmed): `clean_text_for_tts` is idempotent — cleaning produces
text free of the substituted character classes, with single-space
whitespace and no leading/trailing space, and every substitution step is
the identity on such text. -/
theorem c9_clean_tts_idempotent :
    ∀ s, clean_text_for_tts (clean_text_for_tts s) = clean_text_for_tts s := by
  intro s
  by_cases hs : s = ""
  · subst hs; rfl
  · have h1 : clean_text_for_tts s = String.mk (cleanL s.data) := by
      simp [clean_text_for_tts, hs]
    rw [h1]
    by_cases h2 : String.mk (cleanL s.data) = ""
    · rw [h2]; rfl
    · have h3 : clean_text_for_tts (String.mk (cleanL s.data)) =
          String.mk (cleanL (String.mk (cleanL s.data)).data) := by
        simp [clean_text_for_tts, h2]
      rw [h3]
      have hd : (String.mk (cleanL s.data)).data = cleanL s.data := rfl
      rw [hd, cleanL_idem]

/-- C10 (confirmed): a request whose messages contain no user-role message
(case-insensitively) is rejected with HTTP 400 before any upstream request
is issued (the second component of the result records that no upstream
call happened), and `extract_last_user` returns the content of the last
user message when one exists. -/
theorem c10_no_user_message :
    (∀ (env : Env) (stt : J → String) (messages : List ChatMessage)
        (stream : Option Bool) (mods : Option (List String))
        (audioOpt : Option (List (String × J))) (sid : String),
      (∀ m ∈ messages, pyLower m.role ≠ "user") →
      chat_completions env stt messages stream mods audioOpt sid =
        (.httpError 400 "No user message found", false)) ∧
    (∀ (pre suf : List ChatMessage) (m : ChatMessage),
      pyLower m.role = "user" →
      (∀ m2 ∈ suf, pyLower m2.role ≠ "user") →
      extract_last_user (pre ++ m :: suf) = some m.content) := by
  constructor
  · intro env stt messages stream mods audioOpt sid h
    have hnone : extract_last_user messages = none := by
      unfold extract_last_user
      exact findUserIn_none (fun m hm => h m (List.mem_reverse.mp hm))
    simp only [chat_completions, hnone]
  · intro pre suf m hm hsuf
    unfold extract_last_user
    rw [List.reverse_append, List.reverse_cons, List.append_assoc, List.singleton_append]
    rw [findUserIn_append_none (fun m2 hm2 => hsuf m2 (List.mem_reverse.mp hm2))]
    simp [findUserIn, hm]

/-- Witness for C10, at a concrete no-user request and a concrete
last-user split. -/
theorem c10_no_user_message_witness :
    chat_completions ⟨.connFail, .qfail "a", .qfail "b", .qfail "c"⟩ (fun _ => "")
        [⟨"system", .plain "x"⟩, ⟨"assistant", .plain "y"⟩] (some false) none none "sid" =
      (.httpError 400 "No user message found", false) ∧
    extract_last_user ([⟨"system", .plain "x"⟩] ++ (⟨"USER", .plain "hi"⟩ : ChatMessage) ::
        [⟨"assistant", .plain "y"⟩]) = some (MsgContent.plain "hi") :=
  ⟨c10_no_user_message.1 ⟨.connFail, .qfail "a", .qfail "b", .qfail "c"⟩ (fun _ => "")
      [⟨"system", .plain "x"⟩, ⟨"assistant", .plain "y"⟩] (some false) none none "sid"
      (by decide),
   c10_no_user_message.2 [⟨"system", .plain "x"⟩] [⟨"assistant", .plain "y"⟩]
      ⟨"USER", .plain "hi"⟩ (by decide) (by decide)⟩

/-- C7 (counterexample): the claim says the scenario response is exactly
`{"object": "chat.completion", "choices": [...]}` with no extra fields.
The code's response object carries an additional leading field
`"id": "custom-lm-wrapper-1"` (line 200), so it is not equal to the claimed
object. -/
theorem c7_nonstream_counterexample :
    (chat_completions ⟨.connFail, .qfail "x", .qfail "x",
        .qok 200 [("response", .str "Hi there")] ""⟩ (fun _ => "")
        [⟨"user", .plain "hello"⟩] (some false) none none "sid").1 ≠
      HandlerResult.jsonResp (.obj
        [("object", .str "chat.completion"),
         ("choices", .arr [.obj [("index", .num 0),
           ("message", .obj [("role", .str "assistant"), ("content", .str "Hi there")]),
           ("finish_reason", .str "stop")]])]) := by
  rw [show (chat_completions ⟨.connFail, .qfail "x", .qfail "x",
      .qok 200 [("response", .str "Hi there")] ""⟩ (fun _ => "")
      [⟨"user", .plain "hello"⟩] (some false) none none "sid").1 =
      HandlerResult.jsonResp (.obj
        [("id", .str "custom-lm-wrapper-1"),
         ("object", .str "chat.completion"),
         ("choices", .arr [.obj [("index", .num 0),
           ("message", .obj [("role", .str "assistant"), ("content", .str "Hi there")]),
           ("finish_reason", .str "stop")]])]) from rfl]
  intro h
  injection h with h1
  injection h1 with h2
  simp at h2

/-- C7 (amended): for the scenario request (last user message "hello",
stream false) against an upstream answering 200 `{"response": "Hi there"}`,
the endpoint returns exactly the claimed chat-completion object plus the
extra leading field `"id": "custom-lm-wrapper-1"`. -/
theorem c7_nonstream_amended :
    (chat_completions ⟨.connFail, .qfail "x", .qfail "x",
        .qok 200 [("response", .str "Hi there")] ""⟩ (fun _ => "")
        [⟨"user", .plain "hello"⟩] (some false) none none "sid").1 =
      HandlerResult.jsonResp (.obj
        [("id", .str "custom-lm-wrapper-1"),
         ("object", .str "chat.completion"),
         ("choices", .arr [.obj [("index", .num 0),
           ("message", .obj [("role", .str "assistant"), ("content", .str "Hi there")]),
           ("finish_reason", .str "stop")]])]) := rfl

end Wrap
